import Mathlib

/-!
# Verification of the BOOKING-TOOL absence/slot/credit reconciliation engine

Shallow embedding of the core of `src/webhook.js` (the first of the three
concatenated drafts in that file, lines 1-2696, which all claims cite; the
second draft's `parseAbsenceCommand`, lines 3109-3125, is embedded as
`absenceYearD2`).  Dates are modelled as day indices (days since 1970-01-01,
computed from civil dates by the standard civil-calendar algorithm); SQL
`date` values travel as `YYYY-MM-DD` strings, cast by `castDate`, mirroring
the `$n::date` casts in the queries.  Each database transaction is one pure
state transition on `DB`; rollback returns the unchanged state.  Outbound
messages are modelled by the `Out` inductive; the bodies of rendered menus
are not reproduced, only which send happens.
-/

namespace BookingTool

/-- ASCII whitespace, as matched by the JS regex class and by trim for the
inputs in scope. -/
def isWs (c : Char) : Bool :=
  c == ' ' || c == '\t' || c == '\n' || c == '\r'

/-- Strip leading and trailing whitespace (JS String.prototype.trim). -/
def trimChars (cs : List Char) : List Char :=
  ((cs.dropWhile isWs).reverse.dropWhile isWs).reverse

/-- Lowercase every character (JS toLowerCase; the commands in scope are
ASCII). -/
def lowerChars (cs : List Char) : List Char :=
  cs.map Char.toLower

/-- Numeric value of a digit string. -/
def digitsVal (cs : List Char) : Nat :=
  cs.foldl (fun acc c => acc * 10 + (c.toNat - 48)) 0

/-- Leading decimal-digit run of a string. -/
def leadingDigits (cs : List Char) : List Char :=
  cs.takeWhile (·.isDigit)

/-- JS `parseInt(s, 10)` restricted to the unsigned inputs in scope: the
value of the leading digit run, `none` when there is none (NaN). -/
def jsParseIntNat (s : String) : Option Nat :=
  let ds := leadingDigits s.toList
  if ds.isEmpty then none else some (digitsVal ds)

/-- JS `Number(s)` for the unsigned-integer-or-garbage inputs in scope:
`""` is 0, an all-digit string is its value, anything else NaN (`none`). -/
def jsNumberNat (s : String) : Option Nat :=
  let cs := s.toList
  if cs.isEmpty then some 0
  else if cs.all (·.isDigit) then some (digitsVal cs) else none

/-- JS `Number(s) || null` (handleAbsenceInteractive line 1096): 0 and NaN
are falsy and become null. -/
def numberOrNull (s : String) : Option Nat :=
  match jsNumberNat s with
  | some 0 => none
  | some n => some n
  | none => none

/-- Split a character list at every occurrence of a separator (the
semantics of JS `String.prototype.split` with a one-character separator,
and of Lean's `String.splitOn`, by structural recursion). -/
def splitOnChar : List Char → Char → List (List Char)
  | [], _ => [[]]
  | c :: rest, sep =>
    match splitOnChar rest sep with
    | [] => [[]]
    | g :: gs => if c == sep then [] :: g :: gs else (c :: g) :: gs

/-- JS `s.split(sep)` for a one-character separator. -/
def jsSplit (s : String) (sep : Char) : List String :=
  (splitOnChar s.toList sep).map (fun cs => String.mk cs)

/-- Is the first list a prefix of the second? -/
def isPrefixOfChars : List Char → List Char → Bool
  | [], _ => true
  | _ :: _, [] => false
  | p :: ps, c :: cs => p == c && isPrefixOfChars ps cs

/-- JS `s.startsWith(p)`. -/
def jsStartsWith (s p : String) : Bool :=
  isPrefixOfChars p.toList s.toList

/-- JS `s.trim()` as a string. -/
def jsTrim (s : String) : String :=
  String.mk (trimChars s.toList)

/-- Gregorian leap year. -/
def isLeap (y : Nat) : Bool :=
  y % 4 == 0 && (y % 100 != 0 || y % 400 == 0)

/-- Length of a month. -/
def daysInMonth (y mo : Nat) : Nat :=
  if mo == 2 then (if isLeap y then 29 else 28)
  else if mo == 4 || mo == 6 || mo == 9 || mo == 11 then 30
  else 31

/-- Days since 1970-01-01 of a civil date (standard civil-calendar
algorithm; all interior divisions act on non-negative values, so Int
truncated division agrees with floor division). -/
def daysFromCivil (y : Int) (m d : Nat) : Int :=
  let yy : Int := if m ≤ 2 then y - 1 else y
  let era : Int := (if 0 ≤ yy then yy else yy - 399) / 400
  let yoe : Int := yy - era * 400
  let mp : Int := (Int.ofNat m + 9) % 12
  let doy : Int := (153 * mp + 2) / 5 + Int.ofNat d - 1
  let doe : Int := yoe * 365 + yoe / 4 - yoe / 100 + doy
  era * 146097 + doe - 719468

/-- Day index of a civil date on or after 1970-01-01. -/
def dayIndex (y mo d : Nat) : Nat :=
  (daysFromCivil (Int.ofNat y) mo d).toNat

/-- ISO weekday (1 = Monday .. 7 = Sunday) of a day index; day 0
(1970-01-01) was a Thursday.  Models `EXTRACT(ISODOW FROM ...)`. -/
def isoDow (d : Nat) : Nat :=
  (d + 3) % 7 + 1

/-- Model of the Postgres `::date` cast for the `YYYY-MM-DD` strings this
system passes around: a strictly formatted valid civil date (year ≥ 1970)
casts to its day index, anything else raises (= `none`). -/
def castDate (s : String) : Option Nat :=
  match jsSplit s '-' with
  | [ys, ms, ds] =>
    let yc := ys.toList
    let mc := ms.toList
    let dc := ds.toList
    if yc.length == 4 && mc.length == 2 && dc.length == 2 &&
        yc.all (·.isDigit) && mc.all (·.isDigit) && dc.all (·.isDigit) then
      let y := digitsVal yc
      let mo := digitsVal mc
      let d := digitsVal dc
      if 1970 ≤ y && 1 ≤ mo && mo ≤ 12 && 1 ≤ d && d ≤ daysInMonth y mo then
        some (dayIndex y mo d)
      else none
    else none
  | _ => none

/-- Render a number padded to two digits (JS String.padStart(2, '0')). -/
def pad2 (n : Nat) : String :=
  if n < 10 then "0" ++ toString n else toString n

/-- The wall clock of the node process (`new Date()`), as a civil date plus
seconds of day. -/
structure NowInfo where
  year : Nat
  month : Nat
  day : Nat
  secOfDay : Nat
deriving Repr, DecidableEq

/-- `now.getTime()` in seconds (the JS millisecond comparisons in scope
compare values that are all multiples of 1000, so seconds preserve them). -/
def nowEpochSec (n : NowInfo) : Int :=
  daysFromCivil (Int.ofNat n.year) n.month n.day * 86400 + Int.ofNat n.secOfDay

/-- Strip a literal character sequence from the front of the input. -/
def stripLit : List Char → List Char → Option (List Char)
  | [], cs => some cs
  | _ :: _, [] => none
  | p :: ps, c :: cs => if c == p then stripLit ps cs else none

/-- Match `\d{1,2}` greedily (equivalent to the regex here because in every
use the following token cannot be a digit). -/
def takeDigits12 : List Char → Option (Nat × List Char)
  | [] => none
  | c1 :: rest =>
    if c1.isDigit then
      match rest with
      | c2 :: rest2 =>
        if c2.isDigit then some (digitsVal [c1, c2], rest2)
        else some (digitsVal [c1], rest)
      | [] => some (digitsVal [c1], [])
    else none

/-- Match `\s+` (at least one whitespace, greedily). -/
def takeWs1 : List Char → Option (List Char)
  | [] => none
  | c :: rest => if isWs c then some (rest.dropWhile isWs) else none

/-- Match the date-separator class: dot, slash or dash. -/
def takeDateSep : List Char → Option (List Char)
  | [] => none
  | c :: rest => if c == '.' || c == '/' || c == '-' then some rest else none

/-- Match the optional time clause `(?:\s+o\s+\d{1,2}[:.]\d{2})?$` of the
draft-1 regexes: either the input is exhausted or a full time clause
follows to the end. -/
def matchTimeTail (cs : List Char) : Option Unit :=
  if cs.isEmpty then some () else do
    let r1 ← takeWs1 cs
    let r2 ← stripLit ['o'] r1
    let r3 ← takeWs1 r2
    let (_, r4) ← takeDigits12 r3
    let r5 ← (match r4 with
      | c :: rest => if c == ':' || c == '.' then some rest else none
      | [] => none)
    match r5 with
    | [c1, c2] => if c1.isDigit && c2.isDigit then some () else none
    | _ => none

/-- Match day digits, a date separator, month digits, then the optional
time clause and end of input. -/
def matchDayMonth (cs : List Char) : Option (Nat × Nat) := do
  let (day, r1) ← takeDigits12 cs
  let r2 ← takeDateSep r1
  let (month, r3) ← takeDigits12 r2
  let _ ← matchTimeTail r3
  pure (day, month)

/-- The regex phase of draft-1 `parseAbsenceCommand` (webhook.js 1430-1444):
normalize, try the keyword form, then the bare form, then bounds-check day
and month. -/
def parsedDayMonth (text : String) : Option (Nat × Nat) :=
  let normalized := lowerChars (trimChars text.toList)
  let withKeyword :=
    match stripLit "zwalniam".toList normalized with
    | some rest => (takeWs1 rest).bind matchDayMonth
    | none => none
  let core :=
    match withKeyword with
    | some dm => some dm
    | none => matchDayMonth normalized
  match core with
  | none => none
  | some (day, month) =>
    if day < 1 || day > 31 || month < 1 || month > 12 then none
    else some (day, month)

/-- `new Date(thisYear-mm-ddT00:00:00).getTime()` in seconds: `none` is the
Invalid Date (NaN) produced for an impossible civil date. -/
def candidateSec (thisYear day month : Nat) : Option Int :=
  if 1 ≤ month && month ≤ 12 && 1 ≤ day && day ≤ daysInMonth thisYear month then
    some (daysFromCivil (Int.ofNat thisYear) month day * 86400)
  else none

/-- The draft-1 year-inference rule (webhook.js 1446-1461): next year only
when the process clock is in December and the current-year candidate lies
more than 7 days in the past; a NaN candidate never triggers it. -/
def absenceYear (now : NowInfo) (day month : Nat) : Nat :=
  if now.month == 12 &&
      (match candidateSec now.year day month with
       | some t => decide (t + 7 * 24 * 60 * 60 < nowEpochSec now)
       | none => false) then
    now.year + 1
  else now.year

/-- Draft-1 `parseAbsenceCommand` (webhook.js 1427-1464): parse the
absence command, infer the year, return the `YYYY-MM-DD` string. -/
def parseAbsenceCommand (now : NowInfo) (text : String) : Option String :=
  if text == "" then none
  else
    (parsedDayMonth text).map fun dm =>
      toString (absenceYear now dm.1 dm.2) ++ "-" ++ pad2 dm.2 ++ "-" ++ pad2 dm.1

/-- The draft-2 year-inference rule (webhook.js 3116-3119): next year
whenever the parsed month is earlier than the current month. -/
def absenceYearD2 (now : NowInfo) (month : Nat) : Nat :=
  if month < now.month then now.year + 1 else now.year

/-- Draft-2 `parseAbsenceCommand` (webhook.js 3109-3125): keyword form
only, no time clause, no day/month bounds check, month-comparison year
rule. -/
def parseAbsenceCommandD2 (now : NowInfo) (text : String) : Option String :=
  let normalized := lowerChars (trimChars text.toList)
  let core := (stripLit "zwalniam".toList normalized).bind fun r =>
    (takeWs1 r).bind fun r2 => do
      let (day, r3) ← takeDigits12 r2
      let r4 ← takeDateSep r3
      let (month, r5) ← takeDigits12 r4
      if r5.isEmpty then pure (day, month) else none
  core.map fun dm =>
    toString (absenceYearD2 now dm.2) ++ "-" ++ pad2 dm.2 ++ "-" ++ pad2 dm.1

/-! ## Data model

Relational state, one list per table.  `freeCaps` models the derived
`free_capacity_remaining` column of the database view `v_open_slots_desc`
(the view definition lives in the database, not under `src/`).
`maxHomePrice` models the `max_home_price` column of `v_user_home_price`
likewise. -/

/-- Slot status: `'open'` or `'taken'`. -/
inductive SlotStatus
  | opened
  | taken
deriving Repr, DecidableEq

/-- Row of `public.class_templates`, extended with the per-class columns
(`required_level`, `price_per_session`) that `v_open_slots_desc` exposes
per slot. -/
structure ClassTemplate where
  id : Nat
  groupId : Nat
  weekdayIso : Nat
  startTime : Nat
  isActive : Bool
  requiredLevel : Option Int
  pricePerSession : Option Int
deriving Repr, DecidableEq

/-- Row of `public.groups` (the columns the core reads). -/
structure Group where
  id : Nat
  instructorId : Nat
deriving Repr, DecidableEq

/-- Row of `public.users`; `maxHomePrice` is the user's
`v_user_home_price.max_home_price` (`none` = no row in the view). -/
structure UserRow where
  id : Nat
  firstName : String
  isActive : Bool
  phoneE164 : Option String
  phoneRaw : Option String
  levelId : Int
  maxHomePrice : Option Int
deriving Repr, DecidableEq

/-- Row of `public.instructors` (the columns the core reads). -/
structure InstructorRow where
  id : Nat
  firstName : String
  isActive : Bool
  phoneE164 : Option String
  phoneRaw : Option String
deriving Repr, DecidableEq

/-- Row of `public.enrollments`. -/
structure Enrollment where
  userId : Nat
  classTemplateId : Nat
deriving Repr, DecidableEq

/-- Row of `public.absences` (key columns). -/
structure Absence where
  id : Nat
  userId : Nat
  classTemplateId : Nat
  sessionDate : Nat
deriving Repr, DecidableEq

/-- Row of `public.slots` (the columns the core reads and writes). -/
structure Slot where
  id : Nat
  classTemplateId : Nat
  sessionDate : Nat
  sourceAbsenceId : Option Nat
  status : SlotStatus
  takenByUserId : Option Nat
deriving Repr, DecidableEq

/-- Row of `public.user_absence_credits` (primary key `user_id`, witnessed
by `ON CONFLICT (user_id)` in processAbsence). -/
structure CreditRow where
  userId : Nat
  balance : Int
deriving Repr, DecidableEq

/-- Modelled from the spec: one value of `v_open_slots_desc`'s derived
column `free_capacity_remaining` for a (class template, session date)
pair; the view definition is not under `src/`. -/
structure FreeCapRow where
  classTemplateId : Nat
  sessionDate : Nat
  cap : Int
deriving Repr, DecidableEq

/-- The whole shared state: the relational store plus the two clocks
(database `CURRENT_DATE` and the node process's `new Date()`), plus the
id sequences and the inbox audit log (`inbox_messages.provider_uid`,
which the spec says is the dedupe key of its conditional insert). -/
structure DB where
  today : Nat
  now : NowInfo
  classTemplates : List ClassTemplate
  groups : List Group
  users : List UserRow
  instructors : List InstructorRow
  enrollments : List Enrollment
  absences : List Absence
  slots : List Slot
  credits : List CreditRow
  freeCaps : List FreeCapRow
  inbox : List String
  nextAbsenceId : Nat
  nextSlotId : Nat
deriving Repr, DecidableEq

/-- Lookup of a class template by id. -/
def findTemplate (db : DB) (ctId : Nat) : Option ClassTemplate :=
  db.classTemplates.find? (fun ct => ct.id == ctId)

/-- `COALESCE(balance, 0)` of the claiming member, then JS `|| 0` on a
missing row (handleMakeupInteractive lines 1226-1235). -/
def creditBalance (db : DB) (userId : Nat) : Int :=
  match db.credits.find? (fun c => c.userId == userId) with
  | some c => c.balance
  | none => 0

/-- The view's `free_capacity_remaining` for a (class template, date). -/
def freeCapOf (db : DB) (ctId ymd : Nat) : Int :=
  match db.freeCaps.find? (fun r => r.classTemplateId == ctId && r.sessionDate == ymd) with
  | some r => r.cap
  | none => 0

/-! ## Reconciliation engine: processAbsence (webhook.js 1479-1717) -/

/-- Result of `processAbsence` (its `reason` strings as constructors).
`exception` is the catch-all rollback path, reached here when a date
string fails the `::date` cast. -/
inductive AbsOutcome
  | ok (absenceId : Nat) (classTemplateId : Nat)
  | pastDate
  | noEnrollmentForWeekday
  | alreadyAbsent (absenceId : Nat) (classTemplateId : Nat)
  | exception
deriving Repr, DecidableEq

/-- Hint verification (webhook.js 1496-1514): the user has an enrollment
in this template, the template is active and its weekday matches the
date. -/
def hintVerified (db : DB) (userId ctId ymd : Nat) : Bool :=
  db.enrollments.any fun e =>
    e.userId == userId && e.classTemplateId == ctId &&
      db.classTemplates.any fun ct =>
        ct.id == ctId && ct.isActive && ct.weekdayIso == isoDow ymd

/-- The active templates of the user's enrollments whose weekday matches
the date (the join of webhook.js 1517-1529). -/
def userDayTemplates (db : DB) (userId ymd : Nat) : List ClassTemplate :=
  db.classTemplates.filter fun ct =>
    ct.isActive && ct.weekdayIso == isoDow ymd &&
      db.enrollments.any fun e => e.userId == userId && e.classTemplateId == ct.id

/-- `ORDER BY ct.start_time LIMIT 1` (webhook.js 1525-1526): the earliest
start time wins; ties resolve to the earlier row, matching a stable
sort. -/
def minByStartTime : List ClassTemplate → Option ClassTemplate
  | [] => none
  | ct :: rest =>
    match minByStartTime rest with
    | none => some ct
    | some best => if ct.startTime ≤ best.startTime then some ct else some best

/-- Class-template resolution of `processAbsence` (webhook.js 1493-1535):
a hint must verify, otherwise the call fails; with no hint the user's
first class of the day (by start time) is chosen. -/
def resolveClassTemplate (db : DB) (userId ymd : Nat) (hint : Option Nat) : Option Nat :=
  match hint with
  | some ctId => if hintVerified db userId ctId ymd then some ctId else none
  | none => (minByStartTime (userDayTemplates db userId ymd)).map (fun ct => ct.id)

/-- Credit upsert of step 5 (webhook.js 1607-1617):
`INSERT ... VALUES ($1, 1) ON CONFLICT (user_id) DO UPDATE SET balance =
balance + 1`. -/
def upsertCredit (credits : List CreditRow) (userId : Nat) : List CreditRow :=
  if credits.any (fun c => c.userId == userId) then
    credits.map fun c =>
      if c.userId == userId then { c with balance := c.balance + 1 } else c
  else credits ++ [⟨userId, 1⟩]

/-- `processAbsence(client, userId, ymd, classTemplateIdHint)` as one
atomic state transition; every failure branch rolls back, returning the
state unchanged.  The slot insert's bare `ON CONFLICT DO NOTHING` is
modelled against the spec-stated uniqueness of `source_absence_id` (one
absence, one generated slot).  The post-commit instructor notification
(webhook.js 1621-1709) only sends messages and is outside the
transaction; it touches none of the ledgers and is not modelled. -/
def processAbsence (db : DB) (userId : Nat) (ymdS : String) (hint : Option Nat) :
    DB × AbsOutcome :=
  match castDate ymdS with
  | none => (db, .exception)
  | some ymd =>
    if ymd < db.today then (db, .pastDate)
    else
      match resolveClassTemplate db userId ymd hint with
      | none => (db, .noEnrollmentForWeekday)
      | some ctId =>
        match db.absences.find? (fun a =>
            a.userId == userId && a.classTemplateId == ctId && a.sessionDate == ymd) with
        | some a => (db, .alreadyAbsent a.id ctId)
        | none =>
          let aid := db.nextAbsenceId
          let newAbs : Absence := ⟨aid, userId, ctId, ymd⟩
          let newSlot : Slot := ⟨db.nextSlotId, ctId, ymd, some aid, .opened, none⟩
          let slots :=
            if db.slots.any (fun s => s.sourceAbsenceId == some aid) then db.slots
            else db.slots ++ [newSlot]
          ({ db with
              absences := db.absences ++ [newAbs]
              slots := slots
              credits := upsertCredit db.credits userId
              nextAbsenceId := aid + 1
              nextSlotId := db.nextSlotId + 1 },
            .ok aid ctId)

/-! ## Conversation state machine -/

/-- An inbound message event, reduced to the fields the core consumes:
provider id, sender wa id, `m.type`, `m.interactive?.type`, the opaque
reply id (of whichever of `list_reply`/`button_reply` is present), and
`m.text?.body`. -/
structure InMsg where
  id : String
  fromWa : String
  mtype : String
  itype : Option String
  replyId : Option String
  textBody : Option String
deriving Repr, DecidableEq

/-- Resolved sender (`resolveSenderType`'s result object). -/
inductive Sender
  | noneS
  | user (id : Nat) (name : String) (active : Bool)
  | instructor (id : Nat) (name : String) (active : Bool)
deriving Repr, DecidableEq

/-- `wa.replace(^\+?, '')`: drop at most one leading plus. -/
def waBare (wa : String) : String :=
  if jsStartsWith wa "+" then String.mk (wa.toList.drop 1) else wa

/-- The three-way phone match of `resolveSenderType` (webhook.js 161-176):
`phone_e164 = '+'||bare OR phone_raw = bare OR phone_raw = '+'||bare`. -/
def phoneMatches (e164 raw : Option String) (wa : String) : Bool :=
  let bare := waBare wa
  let plus := "+" ++ bare
  e164 == some plus || raw == some bare || raw == some plus

/-- `resolveSenderType` (webhook.js 156-179): members first, then
instructors, first match wins (the SQL `LIMIT 1` is modelled as first in
table order). -/
def resolveSenderType (db : DB) (wa : String) : Sender :=
  if wa == "" then .noneS
  else
    match db.users.find? (fun u => phoneMatches u.phoneE164 u.phoneRaw wa) with
    | some u => .user u.id u.firstName u.isActive
    | none =>
      match db.instructors.find? (fun i => phoneMatches i.phoneE164 i.phoneRaw wa) with
      | some i => .instructor i.id i.firstName i.isActive
      | none => .noneS

/-- Outbound sends the handlers perform.  Menu/list renderings read the
store but mutate nothing; only their occurrence is modelled, not their
rendered bodies.  Plain-text bodies that claims mention are kept
verbatim. -/
inductive Out
  | text (body : String)
  | mainMenu
  | upcomingClassesMenu
  | makeupMenu
  | absenceMoreQuestion
  | creditsInfo
  | instructorMenu
deriving Repr, DecidableEq

/-- How a handler disposed of an event (derived from the branch taken, for
stating theorems; the JS returns only true/false plus side effects).
`threw` marks an exception that escapes the handler to the webhook's
catch-all. -/
inductive HOutcome
  | sentMenuOrText
  | absOtherDate
  | absPreexisting
  | absEngine (r : AbsOutcome)
  | makeupBadId
  | makeupNoCredit
  | makeupUnavailable
  | makeupClaimed (slotId : Nat)
  | makeupError
  | instrBadId
  | instrPastDate
  | instrNotOwner
  | instrAdded (slotId : Nat)
  | threw
deriving Repr, DecidableEq

/-- `handleAbsenceInteractive` (webhook.js 1073-1187).  Returns `none`
where the JS returns `false` (event not handled, state untouched).  A
malformed date part makes the existing-absence query throw; nothing is
caught inside this handler, so that surfaces as `threw` with no sends. -/
def handleAbsenceInteractive (db : DB) (m : InMsg) (sender : Sender) :
    Option (DB × HOutcome × List Out) :=
  match sender with
  | .user uid _ true =>
    if m.mtype == "interactive" && m.itype == some "list_reply" then
      let id := m.replyId.getD ""
      if !jsStartsWith id "absence_" then none
      else if id == "absence_other_date" then
        some (db, .absOtherDate,
          [.text "Napisz proszę wiadomość w formacie: \"Zwalniam dd/mm\" dla innego terminu."])
      else
        let parts := jsSplit id '_'
        if parts.length < 3 then none
        else
          let ymdS := parts.getD 1 ""
          let ctOpt := numberOrNull (parts.getD 2 "")
          match castDate ymdS with
          | none => some (db, .threw, [])
          | some ymd =>
            let existing := db.absences.find? fun a =>
              a.userId == uid &&
                (match ctOpt with
                 | some ct => a.classTemplateId == ct
                 | none => false) &&
                a.sessionDate == ymd
            match existing with
            | some _ =>
              some (db, .absPreexisting,
                [.text ("Na te zajęcia (" ++ ymdS ++ ") jest już zgłoszona nieobecność."),
                 .absenceMoreQuestion])
            | none =>
              let (db', r) := processAbsence db uid ymdS ctOpt
              match r with
              | .ok _ _ =>
                some (db', .absEngine r,
                  [.text ("✅ Zgłoszono Twoją nieobecność " ++ ymdS ++ ". Miejsce zostało zwolnione."),
                   .absenceMoreQuestion])
              | .alreadyAbsent _ _ =>
                some (db', .absEngine r,
                  [.text ("Na te zajęcia (" ++ ymdS ++ ") jest już zgłoszona nieobecność."),
                   .absenceMoreQuestion])
              | .pastDate =>
                some (db', .absEngine r,
                  [.text "Nie możesz zwolnić zajęć z datą w przeszłości.",
                   .absenceMoreQuestion])
              | .noEnrollmentForWeekday =>
                some (db', .absEngine r,
                  [.text "Nie udało się znaleźć Twoich zajęć w tym dniu. Sprawdź proszę termin lub wybierz inny z listy.",
                   .absenceMoreQuestion])
              | .exception =>
                some (db', .absEngine r,
                  [.text "Coś poszło nie tak przy zgłaszaniu nieobecności. Spróbuj ponownie lub skontaktuj się ze studiem."])
    else if m.mtype == "interactive" && m.itype == some "button_reply" then
      let rid := m.replyId.getD ""
      if rid == "absence_more_yes" then some (db, .sentMenuOrText, [.upcomingClassesMenu])
      else if rid == "absence_more_no" then some (db, .sentMenuOrText, [.mainMenu])
      else none
    else none
  | _ => none

/-- The WHERE clause of the slot-candidate query of
`handleMakeupInteractive` (webhook.js 1247-1284): open, at the requested
occurrence, remaining capacity, the class's required level (when set) at
most the member's level, the class price (when set) at most the member's
price ceiling (999999 when the member has no `v_user_home_price` row), and
the member not already enrolled in that class.  A slot the view does not
describe (no template row) yields no join row. -/
def eligibleSlot (db : DB) (u : UserRow) (ymd ctId : Nat) (s : Slot) : Bool :=
  s.status == .opened && s.sessionDate == ymd && s.classTemplateId == ctId &&
    (match findTemplate db s.classTemplateId with
     | none => false
     | some ct =>
       freeCapOf db s.classTemplateId s.sessionDate > 0 &&
         (match ct.requiredLevel with
          | some rl => rl ≤ u.levelId
          | none => true) &&
         (match ct.pricePerSession with
          | some p => p ≤ (u.maxHomePrice.getD 999999)
          | none => true)) &&
    !(db.enrollments.any fun e => e.userId == u.id && e.classTemplateId == s.classTemplateId)

/-- The candidate rows of the slot query (webhook.js 1247-1284): the
claiming member joined against all slots passing the WHERE clause; a
member with no `users` row yields no join rows. -/
def makeupCandidates (db : DB) (uid ymd ctId : Nat) : List Slot :=
  match db.users.find? (fun u => u.id == uid) with
  | none => []
  | some u => db.slots.filter (eligibleSlot db u ymd ctId)

/-- `ORDER BY s.id LIMIT 1` (webhook.js 1279-1280). -/
def minSlotById : List Slot → Option Slot
  | [] => none
  | s :: rest =>
    match minSlotById rest with
    | none => some s
    | some best => if s.id ≤ best.id then some s else some best

/-- The slot update of step 3 (webhook.js 1302-1312), exactly as written:
`UPDATE public.slots SET status = 'taken', taken_by_user_id = $1, ...
WHERE id = $2` — the row is matched by id alone, with no condition on its
current status. -/
def markSlotTaken (slots : List Slot) (userId slotId : Nat) : List Slot :=
  slots.map fun s =>
    if s.id == slotId then { s with status := .taken, takenByUserId := some userId }
    else s

/-- The credit decrement of step 4 (webhook.js 1315-1323). -/
def decrementCredit (credits : List CreditRow) (userId : Nat) : List CreditRow :=
  credits.map fun c =>
    if c.userId == userId then { c with balance := c.balance - 1 } else c

/-- `handleMakeupInteractive` (webhook.js 1189-1351).  The credit read is
`FOR UPDATE` and the candidate query `FOR UPDATE OF s SKIP LOCKED`; in
this atomic model a transaction is a single step, which is what those
locks enforce.  The handler's own try/catch turns a bad date cast into a
rollback plus an apology text (`makeupError`). -/
def handleMakeupInteractive (db : DB) (m : InMsg) (sender : Sender) :
    Option (DB × HOutcome × List Out) :=
  match sender with
  | .user uid _ true =>
    if m.mtype == "interactive" && m.itype == some "list_reply" then
      let id := m.replyId.getD ""
      if !jsStartsWith id "makeup_" then none
      else
        let parts := jsSplit id '_'
        if parts.length != 3 then
          some (db, .makeupBadId,
            [.text "Nie udało się rozpoznać wybranego terminu. Spróbuj proszę ponownie."])
        else
          match jsParseIntNat (parts.getD 2 "") with
          | none =>
            some (db, .makeupBadId,
              [.text "Nie udało się rozpoznać wybranego terminu. Spróbuj proszę ponownie."])
          | some 0 =>
            some (db, .makeupBadId,
              [.text "Nie udało się rozpoznać wybranego terminu. Spróbuj proszę ponownie."])
          | some ctId =>
            if creditBalance db uid ≤ 0 then
              some (db, .makeupNoCredit,
                [.text "Nie masz już dostępnych nieobecności do odrabiania."])
            else
              match castDate (parts.getD 1 "") with
              | none =>
                some (db, .makeupError,
                  [.text "Coś poszło nie tak przy rezerwacji miejsca do odrabiania. Spróbuj ponownie lub skontaktuj się ze studiem."])
              | some ymd =>
                match minSlotById (makeupCandidates db uid ymd ctId) with
                | none =>
                  some (db, .makeupUnavailable,
                    [.text "Wybrany termin nie jest już dostępny. Wybierz proszę inny termin.",
                     .makeupMenu])
                | some s =>
                  some ({ db with
                            slots := markSlotTaken db.slots uid s.id
                            credits := decrementCredit db.credits uid },
                    .makeupClaimed s.id,
                    [.text "✔️ Potwierdzam rezerwację miejsca do odrabiania."])
    else none
  | _ => none

/-- `handleMainMenuInteractive` (webhook.js 1353-1425): routes the main
menu's own list/button ids, mutating nothing. -/
def handleMainMenuInteractive (db : DB) (m : InMsg) (sender : Sender) :
    Option (DB × HOutcome × List Out) :=
  match sender with
  | .user _ _ true =>
    if m.mtype != "interactive" then none
    else if m.itype == some "list_reply" then
      let id := m.replyId.getD ""
      if id == "menu_absence" then some (db, .sentMenuOrText, [.upcomingClassesMenu])
      else if id == "menu_makeup" then some (db, .sentMenuOrText, [.makeupMenu])
      else if id == "menu_credits" then some (db, .sentMenuOrText, [.creditsInfo])
      else if id == "menu_end" then
        some (db, .sentMenuOrText, [.text "💛 Dziękujemy! Do zobaczenia w studiu!"])
      else none
    else if m.itype == some "button_reply" then
      let rid := m.replyId.getD ""
      if rid == "credits_makeup" then some (db, .sentMenuOrText, [.makeupMenu])
      else if rid == "credits_menu" then some (db, .sentMenuOrText, [.mainMenu])
      else if rid == "no_credits_menu" then some (db, .sentMenuOrText, [.mainMenu])
      else if rid == "no_credits_end" then
        some (db, .sentMenuOrText, [.text "Dziękujemy za kontakt. Do zobaczenia!"])
      else none
    else none
  | _ => none

/-- `handleInstructorAddSlotSelection` (webhook.js 2404-2496): validate
the opaque id, reject past dates, verify class ownership through the
group, then insert an open slot with no absence/credit side effects.  A
malformed date makes the past-date query throw; nothing is caught in this
handler. -/
def handleInstructorAddSlotSelection (db : DB) (m : InMsg) (senderId : Nat) :
    Option (DB × HOutcome × List Out) :=
  let id := m.replyId.getD ""
  if !jsStartsWith id "instr_addslot_" then none
  else
    let parts := jsSplit id '_'
    if parts.length != 4 then
      some (db, .instrBadId, [.text "Nie udało się rozpoznać terminu. Spróbuj ponownie."])
    else
      match jsParseIntNat (parts.getD 3 "") with
      | none =>
        some (db, .instrBadId, [.text "Nie udało się rozpoznać terminu. Spróbuj ponownie."])
      | some 0 =>
        some (db, .instrBadId, [.text "Nie udało się rozpoznać terminu. Spróbuj ponownie."])
      | some ctId =>
        match castDate (parts.getD 2 "") with
        | none => some (db, .threw, [])
        | some ymd =>
          if ymd < db.today then
            some (db, .instrPastDate,
              [.text "Nie możesz dodać miejsca na termin w przeszłości."])
          else
            let owner : Option Nat :=
              match findTemplate db ctId with
              | none => none
              | some ct => (db.groups.find? (fun g => g.id == ct.groupId)).map
                  (fun g => g.instructorId)
            match owner with
            | some iid =>
              if iid != senderId then
                some (db, .instrNotOwner, [.text "Nie możesz dodać miejsca do tych zajęć."])
              else
                some ({ db with
                          slots := db.slots ++
                            [(⟨db.nextSlotId, ctId, ymd, none, .opened, none⟩ : Slot)]
                          nextSlotId := db.nextSlotId + 1 },
                  .instrAdded db.nextSlotId,
                  [.text "Dodano jedno wolne miejsce."])
            | none =>
              some (db, .instrNotOwner, [.text "Nie możesz dodać miejsca do tych zajęć."])

/-- `handleInstructorInteractive` (webhook.js 2572-2630): the instructor
panel's list ids (all read-only menu sends) plus delegation of
`instr_addslot_` ids. -/
def handleInstructorInteractive (db : DB) (m : InMsg) (sender : Sender) :
    Option (DB × HOutcome × List Out) :=
  match sender with
  | .instructor iid _ true =>
    if m.mtype != "interactive" then none
    else if m.itype == some "list_reply" then
      let id := m.replyId.getD ""
      if id == "instr_today" then some (db, .sentMenuOrText, [.instructorMenu])
      else if id == "instr_tomorrow" then some (db, .sentMenuOrText, [.instructorMenu])
      else if id == "instr_absences_7d" then some (db, .sentMenuOrText, [.instructorMenu])
      else if id == "instr_add_slot" then some (db, .sentMenuOrText, [.instructorMenu])
      else if id == "instr_stats_7d" then some (db, .sentMenuOrText, [.instructorMenu])
      else if id == "instr_end" then
        some (db, .sentMenuOrText, [.text "Dziękujemy. Panel instruktora zamknięty."])
      else if jsStartsWith id "instr_addslot_" then
        handleInstructorAddSlotSelection db m iid
      else none
    else none
  | _ => none

/-- Main-menu numeric choice (webhook.js 1466-1474). -/
inductive MenuChoice
  | absence
  | makeup
  | credits
  | endChat
deriving Repr, DecidableEq

/-- `parseMainMenuChoice` (webhook.js 1466-1474). -/
def parseMainMenuChoice (text : String) : Option MenuChoice :=
  if text == "" then none
  else
    let t := jsTrim text
    if t == "1" then some .absence
    else if t == "2" then some .makeup
    else if t == "3" then some .credits
    else if t == "4" then some .endChat
    else none

/-- The interactive-handler priority chain of the webhook handler
(webhook.js 1840-1853): instructor, main menu, makeup, absence; the first
that handles the event wins.  A handler that declines an event never
changed the state. -/
def interactiveChain (db : DB) (m : InMsg) (sender : Sender) :
    Option (DB × HOutcome × List Out) :=
  match handleInstructorInteractive db m sender with
  | some r => some r
  | none =>
    match handleMainMenuInteractive db m sender with
    | some r => some r
    | none =>
      match handleMakeupInteractive db m sender with
      | some r => some r
      | none => handleAbsenceInteractive db m sender

/-- The plain-text flow for an active member (webhook.js 1877-1976):
numbered menu choice first (choice 3 hits the undefined `rows` at line
1896 after sending the credits info — a ReferenceError that escapes to
the webhook's catch), then the free-text absence command, then the
greeting plus main menu.  A message with no text body falls through all
of it and nothing is sent.  The Bool is `true` when an exception escaped
the per-message processing. -/
def textFlow (db : DB) (m : InMsg) (uid : Nat) (nm : String) : DB × List Out × Bool :=
  match m.textBody with
  | none => (db, [], false)
  | some body =>
    if body == "" then (db, [], false)
    else
      match parseMainMenuChoice body with
      | some .absence => (db, [.upcomingClassesMenu], false)
      | some .makeup => (db, [.makeupMenu], false)
      | some .credits => (db, [.creditsInfo], true)
      | some .endChat => (db, [.text "Dziękujemy za kontakt. Do zobaczenia!"], false)
      | none =>
        match parseAbsenceCommand db.now body with
        | some ymdS =>
          let (db', r) := processAbsence db uid ymdS none
          match r with
          | .ok _ _ =>
            (db', [.text ("✅ Nieobecność " ++ ymdS ++ " została zgłoszona, miejsce zwolnione."),
                   .absenceMoreQuestion], false)
          | .pastDate =>
            (db', [.text "❗️Nie możesz zwolnić zajęć z datą w przeszłości."], false)
          | .alreadyAbsent _ _ =>
            (db', [.text "💬Na te zajęcia jest już zgłoszona nieobecność.",
                   .absenceMoreQuestion], false)
          | .noEnrollmentForWeekday =>
            (db', [.text "❗️Nie znalazłem Twoich zajęć w tym terminie.",
                   .upcomingClassesMenu], false)
          | .exception =>
            (db', [.text "❗️Coś poszło nie tak przy zgłaszaniu nieobecności. Spróbuj ponownie lub skontaktuj się ze studiem."], false)
        | none =>
          (db, [.text ("Cześć " ++ nm ++ "!"), .mainMenu], false)

/-- One inbound message event through the full dispatch pipeline of the
webhook handler (webhook.js 1835-1976), after the inbox insert: sender
lookup, interactive chain, the fixed role replies, then the text flow. -/
def dispatchMessage (db : DB) (m : InMsg) : DB × List Out × Bool :=
  let sender := resolveSenderType db m.fromWa
  let interactive :=
    if m.mtype == "interactive" then interactiveChain db m sender else none
  match interactive with
  | some (db', o, outs) => (db', outs, o == .threw)
  | none =>
    match sender with
    | .noneS =>
      (db, [.text "Ten numer nie jest przypisany do żadnego użytkownika. Jeśli chcesz dołączyć do zajęć, skontaktuj się ze studiem przez formularz kontaktowy na stronie https://agnieszkapilatesklasyczny.pl/"],
        false)
    | .instructor _ _ _ => (db, [.instructorMenu], false)
    | .user uid nm active =>
      if !active then (db, [.text "Dziękujemy za wiadomość."], false)
      else textFlow db m uid nm

/-- `insertInboxRecord` (webhook.js 98-107): `INSERT ... ON CONFLICT DO
NOTHING` into `inbox_messages`; modelled from the spec as keyed by the
provider message id (the spec's "conditional/idempotent insert capability
keyed by provider event id"). -/
def insertInboxRecord (inbox : List String) (providerUid : String) : List String :=
  if inbox.contains providerUid then inbox else inbox ++ [providerUid]

/-- One message of the webhook POST handler (webhook.js 1822-1976): log
the event in the inbox (insert-if-absent), then run the full dispatch
pipeline unconditionally — the insert's outcome is never consulted. -/
def processMessage (db : DB) (m : InMsg) : DB × List Out × Bool :=
  let db1 := { db with inbox := insertInboxRecord db.inbox m.id }
  dispatchMessage db1 m

/-- State after a sequence of inbound messages. -/
def runMessages (db : DB) (ms : List InMsg) : DB :=
  ms.foldl (fun d m => (processMessage d m).1) db

/-! ## Helper lemmas -/

theorem minByStartTime_mem {l : List ClassTemplate} {ct : ClassTemplate} (h : minByStartTime l = some ct) : ct ∈ l := by
  induction l with
  | nil => simp [minByStartTime] at h
  | cons x xs ih =>
    simp only [minByStartTime] at h
    split at h
    · cases h; exact List.mem_cons_self _ _
    · rename_i best hbest
      split at h
      · cases h; exact List.mem_cons_self _ _
      · cases h; exact List.mem_cons_of_mem _ (ih hbest)

theorem minByStartTime_none {l : List ClassTemplate} (h : minByStartTime l = none) : l = [] := by
  cases l with
  | nil => rfl
  | cons x xs =>
    exfalso
    simp only [minByStartTime] at h
    split at h <;> [skip; split at h] <;> simp at h

theorem minByStartTime_min : ∀ (l : List ClassTemplate) (ct : ClassTemplate), minByStartTime l = some ct → ∀ x ∈ l, ct.startTime ≤ x.startTime := by
  intro l
  induction l with
  | nil => intro ct h; simp [minByStartTime] at h
  | cons y ys ih =>
    intro ct h x hx
    simp only [minByStartTime] at h
    split at h
    · rename_i hnone
      cases h
      rcases List.mem_cons.mp hx with rfl | hmem
      · exact Nat.le_refl _
      · rw [minByStartTime_none hnone] at hmem; simp at hmem
    · rename_i best hbest
      have hb := ih best hbest
      split at h
      · rename_i hle
        cases h
        rcases List.mem_cons.mp hx with rfl | hmem
        · exact Nat.le_refl _
        · exact Nat.le_trans hle (hb x hmem)
      · rename_i hle
        cases h
        rcases List.mem_cons.mp hx with rfl | hmem
        · exact Nat.le_of_lt (Nat.lt_of_not_le hle)
        · exact hb x hmem

theorem minSlotById_mem {l : List Slot} {s : Slot} (h : minSlotById l = some s) : s ∈ l := by
  induction l with
  | nil => simp [minSlotById] at h
  | cons x xs ih =>
    simp only [minSlotById] at h
    split at h
    · cases h; exact List.mem_cons_self _ _
    · rename_i best hbest
      split at h
      · cases h; exact List.mem_cons_self _ _
      · cases h; exact List.mem_cons_of_mem _ (ih hbest)

theorem upsertCredit_keys (l : List CreditRow) (uid : Nat) :
    (upsertCredit l uid).map (fun c => c.userId) = l.map (fun c => c.userId) ∨
      (upsertCredit l uid).map (fun c => c.userId) = l.map (fun c => c.userId) ++ [uid] := by
  unfold upsertCredit
  split
  · left
    rw [List.map_map]
    apply List.map_congr_left
    intro c _
    simp only [Function.comp_apply]
    split <;> rfl
  · right; simp

theorem upsertCredit_nonneg {l : List CreditRow} {uid : Nat}
    (h : ∀ c ∈ l, 0 ≤ c.balance) : ∀ c ∈ upsertCredit l uid, 0 ≤ c.balance := by
  intro c hc
  unfold upsertCredit at hc
  split at hc
  · rcases List.mem_map.mp hc with ⟨x, hx, rfl⟩
    have := h x hx
    split
    · show 0 ≤ x.balance + 1; omega
    · exact this
  · rcases List.mem_append.mp hc with hmem | hmem
    · exact h c hmem
    · simp at hmem; subst hmem; norm_num

theorem upsertCredit_nodup {l : List CreditRow} {uid : Nat}
    (h : (l.map (fun c => c.userId)).Nodup) :
    ((upsertCredit l uid).map (fun c => c.userId)).Nodup := by
  unfold upsertCredit
  split
  · have hkeys :
        (l.map (fun c =>
          if c.userId == uid then { c with balance := c.balance + 1 } else c)).map
            (fun c => c.userId) = l.map (fun c => c.userId) := by
      rw [List.map_map]
      apply List.map_congr_left
      intro c _
      simp only [Function.comp_apply]
      split <;> rfl
    rw [hkeys]; exact h
  · rename_i hany
    rw [List.map_append, List.nodup_append]
    refine ⟨h, by simp, ?_⟩
    intro a ha ha'
    simp only [List.map_cons, List.map_nil, List.mem_singleton] at ha'
    subst ha'
    rcases List.mem_map.mp ha with ⟨c, hc, hcu⟩
    exact hany (List.any_eq_true.mpr ⟨c, hc, by simp [hcu]⟩)

theorem decrementCredit_keys (l : List CreditRow) (uid : Nat) :
    (decrementCredit l uid).map (fun c => c.userId) = l.map (fun c => c.userId) := by
  unfold decrementCredit
  rw [List.map_map]
  apply List.map_congr_left
  intro c _
  simp only [Function.comp_apply]
  split <;> rfl

theorem decrementCredit_nonneg {l : List CreditRow} {uid : Nat} {cr : CreditRow}
    (hN : (l.map (fun c => c.userId)).Nodup)
    (hP : ∀ c ∈ l, 0 ≤ c.balance)
    (hf : l.find? (fun c => c.userId == uid) = some cr)
    (hB : 0 < cr.balance) :
    ∀ c ∈ decrementCredit l uid, 0 ≤ c.balance := by
  induction l with
  | nil => simp [List.find?] at hf
  | cons x xs ih =>
    simp only [List.map_cons, List.nodup_cons] at hN
    by_cases hx : x.userId = uid
    · have hxx : (x.userId == uid) = true := by simp [hx]
      have hfx : cr = x := by
        rw [List.find?_cons, hxx] at hf
        exact (Option.some_inj.mp hf).symm
      subst hfx
      intro c hc
      unfold decrementCredit at hc
      rw [List.map_cons] at hc
      rcases List.mem_cons.mp hc with rfl | hmem
      · rw [if_pos hxx]
        show 0 ≤ cr.balance - 1
        omega
      · rcases List.mem_map.mp hmem with ⟨z, hz, rfl⟩
        have hzne : ¬ z.userId = uid := by
          intro hzu
          exact hN.1 (hx ▸ hzu ▸ List.mem_map_of_mem (fun c => c.userId) hz)
        rw [if_neg (by simp [hzne])]
        exact hP z (List.mem_cons_of_mem _ hz)
    · have hxx : (x.userId == uid) = false := by simp [hx]
      have hfx : List.find? (fun c => c.userId == uid) xs = some cr := by
        rw [List.find?_cons, hxx] at hf
        exact hf
      intro c hc
      unfold decrementCredit at hc
      rw [List.map_cons] at hc
      rcases List.mem_cons.mp hc with rfl | hmem
      · rw [if_neg (by simp [hx])]
        exact hP x (List.mem_cons_self _ _)
      · exact ih hN.2 (fun z hz => hP z (List.mem_cons_of_mem _ hz)) hfx c hmem

/-! ## Inversion lemmas for the state transitions -/

/-- Everything `processAbsence` can do to the state: nothing (any failure
branch), or the success branch's three-ledger write. -/
theorem processAbsence_inv (db : DB) (u : Nat) (y : String) (hint : Option Nat) :
    (processAbsence db u y hint).1 = db ∨
    ∃ ymd ct, castDate y = some ymd ∧ ¬ ymd < db.today ∧
      resolveClassTemplate db u ymd hint = some ct ∧
      db.absences.find? (fun a =>
        a.userId == u && a.classTemplateId == ct && a.sessionDate == ymd) = none ∧
      (processAbsence db u y hint).1 = { db with
        absences := db.absences ++ [⟨db.nextAbsenceId, u, ct, ymd⟩]
        slots :=
          if db.slots.any (fun s => s.sourceAbsenceId == some db.nextAbsenceId) then db.slots
          else db.slots ++ [⟨db.nextSlotId, ct, ymd, some db.nextAbsenceId, .opened, none⟩]
        credits := upsertCredit db.credits u
        nextAbsenceId := db.nextAbsenceId + 1
        nextSlotId := db.nextSlotId + 1 } := by
  unfold processAbsence
  split
  · left; rfl
  · rename_i ymd hc
    split
    · left; rfl
    · rename_i hp
      split
      · left; rfl
      · rename_i ct hr
        split
        · left; rfl
        · rename_i ha
          right
          exact ⟨ymd, ct, hc, hp, hr, ha, rfl⟩

/-- Everything `handleMakeupInteractive` can do to the state: nothing, or
the claimed branch's slot flip plus credit decrement, with the data the
claimed branch passed through. -/
theorem handleMakeupInteractive_inv (db : DB) (m : InMsg) (s : Sender)
    {db' : DB} {o : HOutcome} {outs : List Out}
    (h : handleMakeupInteractive db m s = some (db', o, outs)) :
    (db' = db ∧ ∀ sid, o ≠ .makeupClaimed sid) ∨
    ∃ uid nm ymd ctId slot,
      s = Sender.user uid nm true ∧
      0 < creditBalance db uid ∧
      minSlotById (makeupCandidates db uid ymd ctId) = some slot ∧
      o = .makeupClaimed slot.id ∧
      db' = { db with slots := markSlotTaken db.slots uid slot.id,
                      credits := decrementCredit db.credits uid } := by
  unfold handleMakeupInteractive at h
  cases s with
  | noneS => simp at h
  | instructor iid nm active => simp at h
  | user uid nm active =>
    cases active with
    | false => simp at h
    | true =>
      simp only at h
      split at h
      case isFalse => simp at h
      split at h
      case isTrue => simp at h
      split at h
      case isTrue => cases h; exact Or.inl ⟨rfl, by intro sid hsid; cases hsid⟩
      split at h
      case h_1 => cases h; exact Or.inl ⟨rfl, by intro sid hsid; cases hsid⟩
      case h_2 => cases h; exact Or.inl ⟨rfl, by intro sid hsid; cases hsid⟩
      case h_3 _ ctId _ hct =>
        split at h
        case isTrue => cases h; exact Or.inl ⟨rfl, by intro sid hsid; cases hsid⟩
        case isFalse hbal =>
          split at h
          case h_1 => cases h; exact Or.inl ⟨rfl, by intro sid hsid; cases hsid⟩
          case h_2 ymd hymd =>
            split at h
            case h_1 => cases h; exact Or.inl ⟨rfl, by intro sid hsid; cases hsid⟩
            case h_2 slot hslot =>
              cases h
              right
              exact ⟨uid, nm, ymd, ctId, slot, rfl, by omega, hslot, rfl, rfl⟩

/-- `handleAbsenceInteractive` either leaves the state alone or hands it
to `processAbsence`. -/
theorem handleAbsenceInteractive_inv (db : DB) (m : InMsg) (s : Sender)
    {db' : DB} {o : HOutcome} {outs : List Out}
    (h : handleAbsenceInteractive db m s = some (db', o, outs)) :
    db' = db ∨ ∃ uid y c, db' = (processAbsence db uid y c).1 := by
  unfold handleAbsenceInteractive at h
  cases s with
  | noneS => simp at h
  | instructor iid nm active => simp at h
  | user uid nm active =>
    cases active with
    | false => simp at h
    | true =>
      simp only at h
      split at h
      · split at h
        · simp at h
        · split at h
          · cases h; exact Or.inl rfl
          · split at h
            · simp at h
            · split at h
              case h_1 => cases h; exact Or.inl rfl
              case h_2 ymd hymd =>
                split at h
                case h_1 => cases h; exact Or.inl rfl
                case h_2 =>
                  split at h <;>
                    (cases h
                     exact Or.inr ⟨uid, jsSplit (m.replyId.getD "") '_' |>.getD 1 "",
                       numberOrNull (jsSplit (m.replyId.getD "") '_' |>.getD 2 ""), rfl⟩)
      · split at h
        · split at h
          · cases h; exact Or.inl rfl
          · split at h
            · cases h; exact Or.inl rfl
            · simp at h
        · simp at h

/-- `handleMainMenuInteractive` never changes the state. -/
theorem handleMainMenuInteractive_inv (db : DB) (m : InMsg) (s : Sender)
    {db' : DB} {o : HOutcome} {outs : List Out}
    (h : handleMainMenuInteractive db m s = some (db', o, outs)) :
    db' = db := by
  unfold handleMainMenuInteractive at h
  cases s with
  | noneS => simp at h
  | instructor iid nm active => simp at h
  | user uid nm active =>
    cases active with
    | false => simp at h
    | true =>
      simp only at h
      split at h
      · simp at h
      · split at h
        · split at h
          · cases h; rfl
          · split at h
            · cases h; rfl
            · split at h
              · cases h; rfl
              · split at h
                · cases h; rfl
                · simp at h
        · split at h
          · split at h
            · cases h; rfl
            · split at h
              · cases h; rfl
              · split at h
                · cases h; rfl
                · split at h
                  · cases h; rfl
                  · simp at h
          · simp at h

/-- `handleInstructorAddSlotSelection` either leaves the state alone or
appends one open unsourced slot. -/
theorem handleInstructorAddSlotSelection_inv (db : DB) (m : InMsg) (iid : Nat)
    {db' : DB} {o : HOutcome} {outs : List Out}
    (h : handleInstructorAddSlotSelection db m iid = some (db', o, outs)) :
    db' = db ∨ ∃ ct ymd, db' = { db with
      slots := db.slots ++ [⟨db.nextSlotId, ct, ymd, none, .opened, none⟩]
      nextSlotId := db.nextSlotId + 1 } := by
  unfold handleInstructorAddSlotSelection at h
  simp only at h
  split at h
  · simp at h
  · split at h
    · cases h; exact Or.inl rfl
    · split at h
      case h_1 => cases h; exact Or.inl rfl
      case h_2 => cases h; exact Or.inl rfl
      case h_3 _ ctId _ _ =>
        split at h
        case h_1 => cases h; exact Or.inl rfl
        case h_2 ymd _ =>
          split at h
          · cases h; exact Or.inl rfl
          · split at h
            case h_1 =>
              split at h
              · cases h; exact Or.inl rfl
              · cases h
                exact Or.inr ⟨ctId, ymd, rfl⟩
            case h_2 => cases h; exact Or.inl rfl

/-- `handleInstructorInteractive` either leaves the state alone or appends
one open unsourced slot (through the add-slot selection). -/
theorem handleInstructorInteractive_inv (db : DB) (m : InMsg) (s : Sender)
    {db' : DB} {o : HOutcome} {outs : List Out}
    (h : handleInstructorInteractive db m s = some (db', o, outs)) :
    db' = db ∨ ∃ ct ymd, db' = { db with
      slots := db.slots ++ [⟨db.nextSlotId, ct, ymd, none, .opened, none⟩]
      nextSlotId := db.nextSlotId + 1 } := by
  unfold handleInstructorInteractive at h
  cases s with
  | noneS => simp at h
  | user uid nm active => simp at h
  | instructor iid nm active =>
    cases active with
    | false => simp at h
    | true =>
      simp only at h
      split at h
      · simp at h
      · split at h
        · split at h
          · cases h; exact Or.inl rfl
          · split at h
            · cases h; exact Or.inl rfl
            · split at h
              · cases h; exact Or.inl rfl
              · split at h
                · cases h; exact Or.inl rfl
                · split at h
                  · cases h; exact Or.inl rfl
                  · split at h
                    · cases h; exact Or.inl rfl
                    · split at h
                      · exact handleInstructorAddSlotSelection_inv db m iid h
                      · simp at h
        · simp at h

/-- `textFlow` either leaves the state alone or hands it to
`processAbsence` with no hint. -/
theorem textFlow_inv (db : DB) (m : InMsg) (uid : Nat) (nm : String) :
    (textFlow db m uid nm).1 = db ∨
    ∃ y, (textFlow db m uid nm).1 = (processAbsence db uid y none).1 := by
  unfold textFlow
  split
  · left; rfl
  · split
    · left; rfl
    · split
      · left; rfl
      · left; rfl
      · left; rfl
      · left; rfl
      · split
        case h_1 y hy =>
          right
          refine ⟨y, ?_⟩
          split
          rename_i db2 r2 hpr
          rw [hpr]
          split <;> rfl
        case h_2 => left; rfl

/-! ## The credit-ledger invariant -/

/-- Well-formedness of the credit ledger: the primary key on `user_id`
holds and no balance is negative. -/
def CreditsOK (l : List CreditRow) : Prop :=
  (l.map (fun c => c.userId)).Nodup ∧ ∀ c ∈ l, 0 ≤ c.balance

instance (l : List CreditRow) : Decidable (CreditsOK l) := by
  unfold CreditsOK; infer_instance

theorem creditsOK_upsert {l : List CreditRow} {uid : Nat} (h : CreditsOK l) :
    CreditsOK (upsertCredit l uid) :=
  ⟨upsertCredit_nodup h.1, upsertCredit_nonneg h.2⟩

theorem creditsOK_decrement {l : List CreditRow} {uid : Nat} (h : CreditsOK l)
    (hb : 0 < (match l.find? (fun c => c.userId == uid) with
               | some c => c.balance
               | none => 0)) :
    CreditsOK (decrementCredit l uid) := by
  rcases hf : l.find? (fun c => c.userId == uid) with _ | cr
  · rw [hf] at hb; simp at hb
  · rw [hf] at hb
    exact ⟨decrementCredit_keys l uid ▸ h.1,
      decrementCredit_nonneg h.1 h.2 hf hb⟩

theorem creditsOK_processAbsence {db : DB} {u : Nat} {y : String} {hint : Option Nat}
    (h : CreditsOK db.credits) : CreditsOK (processAbsence db u y hint).1.credits := by
  rcases processAbsence_inv db u y hint with heq | ⟨ymd, ct, _, _, _, _, heq⟩
  · rw [heq]; exact h
  · rw [heq]; exact creditsOK_upsert h

theorem creditsOK_handleMakeup {db db' : DB} {m : InMsg} {s : Sender}
    {o : HOutcome} {outs : List Out}
    (hh : handleMakeupInteractive db m s = some (db', o, outs))
    (h : CreditsOK db.credits) : CreditsOK db'.credits := by
  rcases handleMakeupInteractive_inv db m s hh with ⟨heq, _⟩ |
    ⟨uid, nm, ymd, ctId, slot, _, hbal, _, _, heq⟩
  · rw [heq]; exact h
  · rw [heq]
    exact creditsOK_decrement h hbal

theorem creditsOK_handleAbsence {db db' : DB} {m : InMsg} {s : Sender}
    {o : HOutcome} {outs : List Out}
    (hh : handleAbsenceInteractive db m s = some (db', o, outs))
    (h : CreditsOK db.credits) : CreditsOK db'.credits := by
  rcases handleAbsenceInteractive_inv db m s hh with heq | ⟨uid, y, c, heq⟩
  · rw [heq]; exact h
  · rw [heq]; exact creditsOK_processAbsence h

theorem creditsOK_handleInstructor {db db' : DB} {m : InMsg} {s : Sender}
    {o : HOutcome} {outs : List Out}
    (hh : handleInstructorInteractive db m s = some (db', o, outs))
    (h : CreditsOK db.credits) : CreditsOK db'.credits := by
  rcases handleInstructorInteractive_inv db m s hh with heq | ⟨ct, ymd, heq⟩ <;>
    rw [heq] <;> exact h

theorem interactiveChain_credits {db db' : DB} {m : InMsg} {s : Sender}
    {o : HOutcome} {outs : List Out}
    (hchain : interactiveChain db m s = some (db', o, outs))
    (h : CreditsOK db.credits) : CreditsOK db'.credits := by
  unfold interactiveChain at hchain
  rcases h1 : handleInstructorInteractive db m s with _ | r1
  · rw [h1] at hchain
    rcases h2 : handleMainMenuInteractive db m s with _ | r2
    · rw [h2] at hchain
      rcases h3 : handleMakeupInteractive db m s with _ | r3
      · rw [h3] at hchain
        exact creditsOK_handleAbsence hchain h
      · rw [h3] at hchain
        cases hchain
        exact creditsOK_handleMakeup h3 h
    · rw [h2] at hchain
      cases hchain
      rw [handleMainMenuInteractive_inv db m _ h2]
      exact h
  · rw [h1] at hchain
    cases hchain
    exact creditsOK_handleInstructor h1 h

theorem creditsOK_dispatch {db : DB} {m : InMsg} (h : CreditsOK db.credits) :
    CreditsOK (dispatchMessage db m).1.credits := by
  unfold dispatchMessage
  simp only
  by_cases hm : (m.mtype == "interactive") = true
  · rw [if_pos hm]
    rcases hchain : interactiveChain db m (resolveSenderType db m.fromWa) with _ | ⟨db', o, outs⟩
    · simp only
      split
      · exact h
      · exact h
      · split
        · exact h
        · rename_i uid nm active _ _
          rcases textFlow_inv db m uid nm with heq | ⟨y, heq⟩ <;> rw [heq]
          · exact h
          · exact creditsOK_processAbsence h
    · exact interactiveChain_credits hchain h
  · rw [if_neg hm]
    simp only
    split
    · exact h
    · exact h
    · split
      · exact h
      · rename_i uid nm active _ _
        rcases textFlow_inv db m uid nm with heq | ⟨y, heq⟩ <;> rw [heq]
        · exact h
        · exact creditsOK_processAbsence h

theorem creditsOK_processMessage {db : DB} {m : InMsg} (h : CreditsOK db.credits) :
    CreditsOK (processMessage db m).1.credits := by
  unfold processMessage
  exact creditsOK_dispatch h

theorem creditsOK_runMessages {db : DB} (ms : List InMsg) (h : CreditsOK db.credits) :
    CreditsOK (runMessages db ms).credits := by
  induction ms generalizing db with
  | nil => exact h
  | cons m ms ih =>
    exact ih (creditsOK_processMessage h)

/-! ## Inbox frame lemmas -/

theorem processAbsence_inbox (db : DB) (u : Nat) (y : String) (hint : Option Nat) :
    (processAbsence db u y hint).1.inbox = db.inbox := by
  rcases processAbsence_inv db u y hint with heq | ⟨ymd, ct, _, _, _, _, heq⟩ <;> rw [heq]

theorem interactiveChain_inbox {db db' : DB} {m : InMsg} {s : Sender}
    {o : HOutcome} {outs : List Out}
    (hchain : interactiveChain db m s = some (db', o, outs)) :
    db'.inbox = db.inbox := by
  unfold interactiveChain at hchain
  rcases h1 : handleInstructorInteractive db m s with _ | r1
  · rw [h1] at hchain
    rcases h2 : handleMainMenuInteractive db m s with _ | r2
    · rw [h2] at hchain
      rcases h3 : handleMakeupInteractive db m s with _ | r3
      · rw [h3] at hchain
        rcases handleAbsenceInteractive_inv db m _ hchain with heq | ⟨uid, y, c, heq⟩ <;>
          rw [heq]
        exact processAbsence_inbox db uid y c
      · rw [h3] at hchain
        cases hchain
        rcases handleMakeupInteractive_inv db m _ h3 with ⟨heq, _⟩ |
          ⟨uid, nm, ymd, ctId, slot, _, _, _, _, heq⟩ <;> rw [heq]
    · rw [h2] at hchain
      cases hchain
      rw [handleMainMenuInteractive_inv db m _ h2]
  · rw [h1] at hchain
    cases hchain
    rcases handleInstructorInteractive_inv db m _ h1 with heq | ⟨ct, ymd, heq⟩ <;>
      rw [heq]

theorem dispatchMessage_inbox (db : DB) (m : InMsg) :
    (dispatchMessage db m).1.inbox = db.inbox := by
  unfold dispatchMessage
  simp only
  by_cases hm : (m.mtype == "interactive") = true
  · rw [if_pos hm]
    rcases hchain : interactiveChain db m (resolveSenderType db m.fromWa) with _ | ⟨db', o, outs⟩
    · simp only
      split
      · rfl
      · rfl
      · split
        · rfl
        · rename_i uid nm active _ _
          rcases textFlow_inv db m uid nm with heq | ⟨y, heq⟩ <;> rw [heq]
          exact processAbsence_inbox db uid y none
    · exact interactiveChain_inbox hchain
  · rw [if_neg hm]
    simp only
    split
    · rfl
    · rfl
    · split
      · rfl
      · rename_i uid nm active _ _
        rcases textFlow_inv db m uid nm with heq | ⟨y, heq⟩ <;> rw [heq]
        exact processAbsence_inbox db uid y none

/-! ## Concrete example state

A small studio on 2025-11-10 (day index 20402): member 1 is enrolled in
two Monday classes (templates 10 at 10:00 and 20 at 11:40 in minutes),
member 2 is enrolled in neither and holds one credit, instructor 7 owns
group 1.  2025-11-17 (day index 20409) is the next Monday. -/

def exCt10 : ClassTemplate := ⟨10, 1, 1, 600, true, some 3, some 50⟩

def exCt20 : ClassTemplate := ⟨20, 1, 1, 700, true, none, none⟩

def exDB : DB := {
  today := 20402
  now := ⟨2025, 11, 10, 0⟩
  classTemplates := [exCt10, exCt20]
  groups := [⟨1, 7⟩]
  users := [⟨1, "Ala", true, some "+48111", none, 5, some 100⟩,
            ⟨2, "Ola", true, some "+48222", none, 5, some 100⟩]
  instructors := [⟨7, "Aga", true, some "+48777", none⟩]
  enrollments := [⟨1, 10⟩, ⟨1, 20⟩]
  absences := []
  slots := [⟨1, 10, 20409, none, .opened, none⟩]
  credits := [⟨2, 1⟩]
  freeCaps := [⟨10, 20409, 3⟩]
  inbox := []
  nextAbsenceId := 100
  nextSlotId := 50 }

/-- A member-2 list reply claiming the 2025-11-17 slot of template 10. -/
def exMakeupMsg : InMsg :=
  ⟨"wamid1", "48222", "interactive", some "list_reply", some "makeup_2025-11-17_10", none⟩

/-- A member-1 list reply whose absence id has a non-numeric class
template field. -/
def exBadAbsenceMsg : InMsg :=
  ⟨"wamid2", "48111", "interactive", some "list_reply", some "absence_2025-11-17_x", none⟩

/-- A plain-text "4" (end-of-chat menu choice) from member 1. -/
def exTextMsg : InMsg :=
  ⟨"wamid3", "48111", "text", none, none, some "4"⟩

/-! ## Claims -/

/-- C6.  For every member, class and date strictly before `CURRENT_DATE`,
`processAbsence` returns `past_date` and leaves the whole state (hence
all three ledgers) unchanged, whatever enrollments exist and whatever
hint was passed: the past-date check runs before hint verification and
resolution. -/
theorem c6_past_date_rejection (db : DB) (userId : Nat) (ymdS : String)
    (d : Nat) (hint : Option Nat)
    (hc : castDate ymdS = some d) (hp : d < db.today) :
    processAbsence db userId ymdS hint = (db, .pastDate) := by
  simp [processAbsence, hc, hp]

theorem c6_past_date_rejection_witness :
    castDate "2025-11-03" = some 20395 ∧ 20395 < exDB.today ∧
      processAbsence exDB 1 "2025-11-03" (some 10) = (exDB, .pastDate) :=
  ⟨by decide, by decide,
    c6_past_date_rejection exDB 1 "2025-11-03" 20395 (some 10) (by decide) (by decide)⟩

/-- C5 counterexample.  Member 1 is enrolled in template 10 on the
date's weekday; the stale hint 99 fails verification.  The claim says the
call must then behave as if no hint was given (which would succeed,
resolving template 10) — but the code aborts with
`no_enrollment_for_weekday` instead of falling through. -/
theorem c5_counterexample :
    processAbsence exDB 1 "2025-11-17" (some 99) = (exDB, .noEnrollmentForWeekday) ∧
      (processAbsence exDB 1 "2025-11-17" none).2 = .ok 100 10 := by
  constructor
  · rfl
  · rfl

/-- C5 amended.  A `classTemplateHint` that fails verification does not
fall through to the resolver: whenever the date is castable and not in
the past and the hint fails verification, the call aborts with
`no_enrollment_for_weekday` and the state is unchanged, regardless of
what the no-hint resolver would have produced. -/
theorem c5_failed_hint_aborts (db : DB) (uid : Nat) (ymdS : String)
    (d ctHint : Nat)
    (hc : castDate ymdS = some d) (hp : ¬ d < db.today)
    (hv : hintVerified db uid ctHint d = false) :
    processAbsence db uid ymdS (some ctHint) = (db, .noEnrollmentForWeekday) := by
  simp [processAbsence, resolveClassTemplate, hc, hp, hv]

theorem c5_failed_hint_aborts_witness :
    castDate "2025-11-17" = some 20409 ∧ ¬ (20409 : Nat) < exDB.today ∧
      hintVerified exDB 1 99 20409 = false ∧
      processAbsence exDB 1 "2025-11-17" (some 99) = (exDB, .noEnrollmentForWeekday) :=
  ⟨by decide, by decide, by decide,
    c5_failed_hint_aborts exDB 1 "2025-11-17" 20409 99 (by decide) (by decide) (by decide)⟩

/-- C3 counterexample.  Member 1 is enrolled in two active classes on the
same weekday (templates 10 and 20, both Monday); a free-text report for
Monday 2025-11-17 carries no hint and no time.  The claim says it must
fail with `ambiguous_day_requires_time`; the code instead succeeds,
silently resolving to template 10 (`ORDER BY ct.start_time LIMIT 1`). -/
theorem c3_counterexample :
    (userDayTemplates exDB 1 20409).length = 2 ∧
      (processAbsence exDB 1 "2025-11-17" none).2 = .ok 100 10 := by
  constructor
  · rfl
  · rfl

/-- C3 amended.  A free-text (no-hint) report never fails with an
ambiguity reason: whenever the member has any active enrollment on the
date's weekday, the call resolves to the candidate class with the
earliest start time (first in table order among ties) and, absent an
existing absence, succeeds against that class. -/
theorem c3_earliest_start_time_wins (db : DB) (uid : Nat) (ymdS : String)
    (d : Nat) (ct : ClassTemplate)
    (hc : castDate ymdS = some d) (hp : ¬ d < db.today)
    (hmin : minByStartTime (userDayTemplates db uid d) = some ct)
    (hab : db.absences.find? (fun a =>
      a.userId == uid && a.classTemplateId == ct.id && a.sessionDate == d) = none) :
    (processAbsence db uid ymdS none).2 = .ok db.nextAbsenceId ct.id ∧
      ct ∈ userDayTemplates db uid d ∧
      ∀ x ∈ userDayTemplates db uid d, ct.startTime ≤ x.startTime := by
  refine ⟨?_, minByStartTime_mem hmin, minByStartTime_min _ _ hmin⟩
  simp [processAbsence, resolveClassTemplate, hc, hp, hmin, hab]

theorem c3_earliest_start_time_wins_witness :
    (processAbsence exDB 1 "2025-11-17" none).2 = .ok 100 10 ∧
      exCt10 ∈ userDayTemplates exDB 1 20409 ∧
      ∀ x ∈ userDayTemplates exDB 1 20409, exCt10.startTime ≤ x.startTime :=
  (c3_earliest_start_time_wins exDB 1 "2025-11-17" 20409 exCt10
    (by decide) (by decide) (by decide) (by decide))

/-- C8 counterexample.  The node clock is 2025-06-15 (June); the bare
command names 12/03, whose month (3) is earlier than the current month
(6).  The claim says the date must be assigned to next year (2026-03-12);
draft-1 `parseAbsenceCommand` assigns the current year. -/
theorem c8_counterexample :
    parsedDayMonth "zwalniam 12/03" = some (12, 3) ∧ 3 < 6 ∧
      parseAbsenceCommand ⟨2025, 6, 15, 0⟩ "zwalniam 12/03" = some "2025-03-12" ∧
      parseAbsenceCommand ⟨2025, 6, 15, 0⟩ "zwalniam 12/03" ≠ some "2026-03-12" := by
  refine ⟨by decide, by decide, by decide, by decide⟩

/-- C8 amended.  For every parsed bare dd/mm command, the year is the
current year unless the process clock is in December and the current-year
candidate date lies more than 7 days in the past, in which case it is the
next year — exactly the `absenceYear` rule; the claim's "month earlier
than the current month" rule is the one implemented verbatim by the
second draft (`absenceYearD2`, webhook.js 3116-3119). -/
theorem c8_year_inference (now : NowInfo) (text : String) (day month : Nat)
    (hparse : parsedDayMonth text = some (day, month)) (hne : text ≠ "") :
    parseAbsenceCommand now text =
      some (toString (absenceYear now day month) ++ "-" ++ pad2 month ++ "-" ++ pad2 day) ∧
    (absenceYear now day month = now.year ∨ absenceYear now day month = now.year + 1) ∧
    (absenceYear now day month = now.year + 1 ↔
      now.month = 12 ∧ ∃ t, candidateSec now.year day month = some t ∧
        t + 7 * 24 * 60 * 60 < nowEpochSec now) ∧
    (month < now.month → absenceYearD2 now month = now.year + 1) ∧
    (now.month ≤ month → absenceYearD2 now month = now.year) := by
  refine ⟨?_, ?_, ?_, ?_, ?_⟩
  · have hne' : (text == "") = false := by
      simp [hne]
    simp [parseAbsenceCommand, hne', hparse]
  · unfold absenceYear
    split
    · right; rfl
    · left; rfl
  · constructor
    · intro hy
      unfold absenceYear at hy
      split at hy
      · rename_i hcond
        simp only [Bool.and_eq_true, beq_iff_eq] at hcond
        refine ⟨hcond.1, ?_⟩
        rcases hq : candidateSec now.year day month with _ | t
        · rw [hq] at hcond; simp at hcond
        · rw [hq] at hcond
          exact ⟨t, rfl, by simpa using hcond.2⟩
      · omega
    · intro ⟨h12, t, ht, hlt⟩
      unfold absenceYear
      rw [if_pos]
      rw [h12, ht]
      simp only [beq_self_eq_true, Bool.true_and, decide_eq_true_eq]
      omega
  · intro hlt
    unfold absenceYearD2
    rw [if_pos hlt]
  · intro hge
    unfold absenceYearD2
    rw [if_neg (by omega)]

theorem c8_year_inference_witness :
    parseAbsenceCommand ⟨2025, 12, 20, 3600⟩ "zwalniam 5/1" =
      some (toString (absenceYear ⟨2025, 12, 20, 3600⟩ 5 1) ++ "-" ++ pad2 1 ++ "-" ++ pad2 5) ∧
    (absenceYear ⟨2025, 12, 20, 3600⟩ 5 1 = 2025 ∨ absenceYear ⟨2025, 12, 20, 3600⟩ 5 1 = 2026) ∧
    (absenceYear ⟨2025, 12, 20, 3600⟩ 5 1 = 2026 ↔
      (12 : Nat) = 12 ∧ ∃ t, candidateSec 2025 5 1 = some t ∧
        t + 7 * 24 * 60 * 60 < nowEpochSec ⟨2025, 12, 20, 3600⟩) ∧
    ((1 : Nat) < 12 → absenceYearD2 ⟨2025, 12, 20, 3600⟩ 1 = 2026) ∧
    ((12 : Nat) ≤ 1 → absenceYearD2 ⟨2025, 12, 20, 3600⟩ 1 = 2025) :=
  c8_year_inference ⟨2025, 12, 20, 3600⟩ "zwalniam 5/1" 5 1 (by decide) (by decide)

/-- C4 counterexample.  The slot update of webhook.js 1302-1312 matches
its row by id alone — it carries no `status = 'open'` guard.  Applied to
a row that is already `taken` (by user 1), it overwrites the claimant
with user 2, so the update statement itself does not protect taken
rows. -/
theorem c4_counterexample :
    markSlotTaken [⟨1, 10, 20409, none, .taken, some 1⟩] 2 1 =
      [⟨1, 10, 20409, none, .taken, some 2⟩] ∧
    some 2 ≠ (some 1 : Option Nat) := by
  exact ⟨by decide, by decide⟩

/-- C4 amended.  The update has no open-at-write condition; protection
against overwriting comes from the transaction: the row is selected with
`status = 'open'` under `FOR UPDATE` in the same atomic step.  Hence,
provided slot ids are unique, every `handleMakeupInteractive` call still
moves slots one way only: each slot is either untouched or goes from
`open` to `taken`. -/
theorem c4_one_way_transitions (db : DB) (m : InMsg) (s : Sender)
    {db' : DB} {o : HOutcome} {outs : List Out}
    (hids : (db.slots.map (fun x => x.id)).Nodup)
    (h : handleMakeupInteractive db m s = some (db', o, outs)) :
    db'.slots.length = db.slots.length ∧
    ∀ i (h1 : i < db.slots.length) (h2 : i < db'.slots.length),
      db'.slots[i] = db.slots[i] ∨
      (db.slots[i].status = .opened ∧ db'.slots[i].status = .taken) := by
  rcases handleMakeupInteractive_inv db m s h with ⟨heq, _⟩ |
    ⟨uid, nm, ymd, ctId, slot, _, _, hslot, _, heq⟩
  · subst heq
    exact ⟨rfl, fun i h1 h2 => Or.inl rfl⟩
  · have hmem : slot ∈ makeupCandidates db uid ymd ctId := by
      rcases hu : db.users.find? (fun u => u.id == uid) with _ | u
      · unfold makeupCandidates at hslot
        rw [hu] at hslot
        simp [minSlotById] at hslot
      · exact minSlotById_mem hslot
    have hslotmem : slot ∈ db.slots ∧ slot.status = SlotStatus.opened := by
      unfold makeupCandidates at hmem
      rcases hu : db.users.find? (fun u => u.id == uid) with _ | u
      · rw [hu] at hmem; simp at hmem
      · rw [hu] at hmem
        have := List.mem_filter.mp hmem
        refine ⟨this.1, ?_⟩
        have hel := this.2
        unfold eligibleSlot at hel
        simp only [Bool.and_eq_true, beq_iff_eq] at hel
        exact hel.1.1.1.1
    subst heq
    refine ⟨by simp [markSlotTaken], ?_⟩
    intro i h1 h2
    show (markSlotTaken db.slots uid slot.id)[i] = db.slots[i] ∨ _
    unfold markSlotTaken
    rw [List.getElem_map]
    by_cases hid : (db.slots[i].id == slot.id) = true
    · have heq2 : db.slots[i] = slot :=
        List.inj_on_of_nodup_map hids (db.slots.getElem_mem h1) hslotmem.1
          (by simpa using hid)
      rw [if_pos hid]
      right
      refine ⟨heq2 ▸ hslotmem.2, rfl⟩
    · rw [if_neg hid]
      exact Or.inl rfl

/-- The state after member 2 claims the open slot of `exDB`: the slot is
taken by user 2 and the credit balance went from 1 to 0. -/
def exDBMk : DB :=
  { exDB with slots := [⟨1, 10, 20409, none, .taken, some 2⟩],
              credits := [⟨2, 0⟩] }

theorem c4_one_way_transitions_witness :
    exDBMk.slots.length = exDB.slots.length ∧
    ∀ i (_h1 : i < exDB.slots.length) (h2 : i < exDBMk.slots.length),
      exDBMk.slots[i] = exDB.slots[i] ∨
      (exDB.slots[i].status = .opened ∧ exDBMk.slots[i].status = .taken) :=
  c4_one_way_transitions exDB exMakeupMsg (Sender.user 2 "Ola" true) (by decide)
    (show handleMakeupInteractive exDB exMakeupMsg (Sender.user 2 "Ola" true) =
      some (exDBMk, .makeupClaimed 1,
        [.text "✔️ Potwierdzam rezerwację miejsca do odrabiania."]) from by decide)

/-- The eligibility filters as the spec sentence words them: the member's
skill/level tier at most the class's required level, the member's price
ceiling at least the class price, and the member not already enrolled in
that class.  Declared only to compare the spec's wording against the
code's filter (`eligibleSlot`); the level comparison runs the other way
around in the code. -/
def specEligibilityFilters (db : DB) (uid : Nat) (s : Slot) : Bool :=
  match db.users.find? (fun u => u.id == uid), findTemplate db s.classTemplateId with
  | some u, some ct =>
    (match ct.requiredLevel with
     | some rl => u.levelId ≤ rl
     | none => true) &&
    (match ct.pricePerSession with
     | some p => p ≤ u.maxHomePrice.getD 999999
     | none => true) &&
    !(db.enrollments.any fun e => e.userId == u.id && e.classTemplateId == s.classTemplateId)
  | _, _ => false

/-- C7 counterexample.  Member 2 has level 5; template 10 requires level
3.  The code's filter `required_level <= u.level_id` (3 ≤ 5) admits the
slot and the handler claims it, but the claim's filter "member's tier ≤
required level" (5 ≤ 3) rejects it: the claimed slot does not satisfy
the filters as the claim states them. -/
theorem c7_counterexample :
    (handleMakeupInteractive exDB exMakeupMsg (Sender.user 2 "Ola" true)).map
        (fun r => r.2.1) = some (.makeupClaimed 1) ∧
    exDB.slots.find? (fun s => s.id == 1) = some ⟨1, 10, 20409, none, .opened, none⟩ ∧
    specEligibilityFilters exDB 2 ⟨1, 10, 20409, none, .opened, none⟩ = false := by
  exact ⟨by decide, by decide, by decide⟩

/-- C7 amended.  Every slot a `handleMakeupInteractive` call claims
passed the code's WHERE clause: it was open at the requested occurrence
and, against the claiming member's row, the class's required level (when
set) is at most the member's level, the class price (when set) is at
most the member's price ceiling, and the member is not already enrolled
in that class. -/
theorem c7_claimed_slot_filters (db : DB) (m : InMsg) (s : Sender)
    {db' : DB} {o : HOutcome} {outs : List Out} {sid : Nat}
    (h : handleMakeupInteractive db m s = some (db', o, outs))
    (ho : o = .makeupClaimed sid) :
    ∃ uid nm u slot, s = Sender.user uid nm true ∧
      db.users.find? (fun x => x.id == uid) = some u ∧
      slot ∈ db.slots ∧ slot.id = sid ∧ slot.status = .opened ∧
      freeCapOf db slot.classTemplateId slot.sessionDate > 0 ∧
      (∀ ct, findTemplate db slot.classTemplateId = some ct →
        (∀ rl, ct.requiredLevel = some rl → rl ≤ u.levelId) ∧
        (∀ p, ct.pricePerSession = some p → p ≤ u.maxHomePrice.getD 999999)) ∧
      (∃ ct, findTemplate db slot.classTemplateId = some ct) ∧
      (db.enrollments.any fun e =>
        e.userId == uid && e.classTemplateId == slot.classTemplateId) = false := by
  rcases handleMakeupInteractive_inv db m s h with ⟨heq, hno⟩ |
    ⟨uid, nm, ymd, ctId, slot, hs, hbal, hslot, hoeq, heq⟩
  · exact absurd ho (hno sid)
  · have hsid : slot.id = sid := by
      rw [ho] at hoeq
      cases hoeq
      rfl
    rcases hu : db.users.find? (fun u => u.id == uid) with _ | u
    · unfold makeupCandidates at hslot
      rw [hu] at hslot
      simp [minSlotById] at hslot
    · have hmem : slot ∈ db.slots.filter (eligibleSlot db u ymd ctId) := by
        have := minSlotById_mem hslot
        unfold makeupCandidates at this
        rw [hu] at this
        exact this
      have hfilter := List.mem_filter.mp hmem
      have hel := hfilter.2
      unfold eligibleSlot at hel
      simp only [Bool.and_eq_true, beq_iff_eq] at hel
      obtain ⟨⟨⟨⟨hopen, hdate⟩, hct⟩, hview⟩, henr⟩ := hel
      refine ⟨uid, nm, u, slot, hs, hu, hfilter.1, hsid, hopen, ?_, ?_, ?_, ?_⟩
      · split at hview
        · simp at hview
        · simp only [Bool.and_eq_true, decide_eq_true_eq] at hview
          exact hview.1.1
      · intro ct hctf
        split at hview
        · simp at hview
        · rename_i ct0 hct0
          rw [hctf] at hct0
          cases hct0
          simp only [Bool.and_eq_true, decide_eq_true_eq] at hview
          constructor
          · intro rl hrl
            have := hview.1.2
            rw [hrl] at this
            simpa using this
          · intro p hp
            have := hview.2
            rw [hp] at this
            simpa using this
      · split at hview
        · simp at hview
        · rename_i ct0 hct0
          exact ⟨ct0, hct0⟩
      · have huid : u.id = uid := by simpa using List.find?_some hu
        rw [← huid]
        simpa using henr

theorem c7_claimed_slot_filters_witness :
    ∃ uid nm u slot, (Sender.user 2 "Ola" true : Sender) = Sender.user uid nm true ∧
      exDB.users.find? (fun x => x.id == uid) = some u ∧
      slot ∈ exDB.slots ∧ slot.id = 1 ∧ slot.status = .opened ∧
      freeCapOf exDB slot.classTemplateId slot.sessionDate > 0 ∧
      (∀ ct, findTemplate exDB slot.classTemplateId = some ct →
        (∀ rl, ct.requiredLevel = some rl → rl ≤ u.levelId) ∧
        (∀ p, ct.pricePerSession = some p → p ≤ u.maxHomePrice.getD 999999)) ∧
      (∃ ct, findTemplate exDB slot.classTemplateId = some ct) ∧
      (exDB.enrollments.any fun e =>
        e.userId == uid && e.classTemplateId == slot.classTemplateId) = false :=
  c7_claimed_slot_filters exDB exMakeupMsg (Sender.user 2 "Ola" true)
    (show handleMakeupInteractive exDB exMakeupMsg (Sender.user 2 "Ola" true) =
      some (exDBMk, .makeupClaimed 1,
        [.text "✔️ Potwierdzam rezerwację miejsca do odrabiania."]) from by decide)
    rfl

/-- C10.  The inbox insert is insert-if-absent and is never consulted:
for an event whose provider id is already logged, the insert leaves
`inbox_messages` unchanged and the whole per-message processing equals
the bare dispatch pipeline on the unchanged state — the redelivered event
is fully reprocessed and its outbound replies are produced again;
deduplication of effects is left to the downstream operations. -/
theorem c10_redelivery_reprocessed (db : DB) (m : InMsg)
    (hdup : db.inbox.contains m.id = true) :
    processMessage db m = dispatchMessage db m ∧
    (processMessage db m).1.inbox = db.inbox := by
  have hins : insertInboxRecord db.inbox m.id = db.inbox := by
    unfold insertInboxRecord
    rw [if_pos hdup]
  have hpm : processMessage db m = dispatchMessage db m := by
    unfold processMessage
    rw [hins]
  refine ⟨hpm, ?_⟩
  rw [hpm]
  exact dispatchMessage_inbox db m

/-- `exDB` with the provider id of `exTextMsg` already logged. -/
def exDBDup : DB := { exDB with inbox := ["wamid3"] }

theorem c10_redelivery_reprocessed_witness :
    exDBDup.inbox.contains exTextMsg.id = true ∧
    (processMessage exDBDup exTextMsg = dispatchMessage exDBDup exTextMsg ∧
      (processMessage exDBDup exTextMsg).1.inbox = exDBDup.inbox) :=
  ⟨by decide, c10_redelivery_reprocessed exDBDup exTextMsg (by decide)⟩

/-- C9 counterexample.  The id `absence_2025-11-17_x` has the right field
count but a non-numeric class template field.  The claim says every
id-family handler treats such an id as a no-op with a "could not
understand" reply; instead `handleAbsenceInteractive` coerces the bad
field to null, falls into the resolver-based absence flow, and performs
ledger operations: a new absence row, a new open slot, and a credit
increment for member 1. -/
theorem c9_counterexample :
    (handleAbsenceInteractive exDB exBadAbsenceMsg (Sender.user 1 "Ala" true)).map
        (fun r => (r.2.1, r.1.absences.length, r.1.slots.length, creditBalance r.1 1)) =
      some (.absEngine (.ok 100 10), 1, 2, 1) ∧
    exDB.absences.length = 0 ∧ exDB.slots.length = 1 ∧ creditBalance exDB 1 = 0 := by
  exact ⟨by decide, by decide, by decide, by decide⟩

theorem listLengthEqFour {α : Type _} {l : List α} (h : l.length = 4) :
    ∃ a b c d, l = [a, b, c, d] := by
  rcases l with _ | ⟨a, l⟩
  · simp at h
  rcases l with _ | ⟨b, l⟩
  · simp at h
  rcases l with _ | ⟨c, l⟩
  · simp at h
  rcases l with _ | ⟨d, l⟩
  · simp at h
  rcases l with _ | ⟨e, l⟩
  · exact ⟨a, b, c, d, rfl⟩
  · simp at h

/-- C9 amended.  Malformed opaque ids are handled per family: the
`makeup_` and `instr_addslot_` handlers answer a wrong field count or a
non-numeric (or zero) template id with their fixed "could not recognize"
text and touch nothing; the `absence_` handler returns unhandled (no
reply at all) on a wrong field count, and treats a non-numeric template
field as a null hint, running the full resolver-based absence flow (see
the counterexample). -/
theorem c9_malformed_id_handling :
    (∀ (db : DB) (m : InMsg) (uid : Nat) (nm id : String),
      m.mtype = "interactive" → m.itype = some "list_reply" → m.replyId = some id →
      jsStartsWith id "makeup_" = true → (jsSplit id '_').length ≠ 3 →
      handleMakeupInteractive db m (.user uid nm true) = some (db, .makeupBadId,
        [.text "Nie udało się rozpoznać wybranego terminu. Spróbuj proszę ponownie."])) ∧
    (∀ (db : DB) (m : InMsg) (uid : Nat) (nm id : String),
      m.mtype = "interactive" → m.itype = some "list_reply" → m.replyId = some id →
      jsStartsWith id "makeup_" = true → (jsSplit id '_').length = 3 →
      (jsParseIntNat ((jsSplit id '_').getD 2 "") = none ∨
        jsParseIntNat ((jsSplit id '_').getD 2 "") = some 0) →
      handleMakeupInteractive db m (.user uid nm true) = some (db, .makeupBadId,
        [.text "Nie udało się rozpoznać wybranego terminu. Spróbuj proszę ponownie."])) ∧
    (∀ (db : DB) (m : InMsg) (iid : Nat) (id : String),
      m.replyId = some id → jsStartsWith id "instr_addslot_" = true →
      (jsSplit id '_').length ≠ 4 →
      handleInstructorAddSlotSelection db m iid = some (db, .instrBadId,
        [.text "Nie udało się rozpoznać terminu. Spróbuj ponownie."])) ∧
    (∀ (db : DB) (m : InMsg) (iid : Nat) (id : String),
      m.replyId = some id → jsStartsWith id "instr_addslot_" = true →
      (jsSplit id '_').length = 4 →
      (jsParseIntNat ((jsSplit id '_').getD 3 "") = none ∨
        jsParseIntNat ((jsSplit id '_').getD 3 "") = some 0) →
      handleInstructorAddSlotSelection db m iid = some (db, .instrBadId,
        [.text "Nie udało się rozpoznać terminu. Spróbuj ponownie."])) ∧
    (∀ (db : DB) (m : InMsg) (uid : Nat) (nm id : String),
      m.mtype = "interactive" → m.itype = some "list_reply" → m.replyId = some id →
      jsStartsWith id "absence_" = true → id ≠ "absence_other_date" →
      (jsSplit id '_').length < 3 →
      handleAbsenceInteractive db m (.user uid nm true) = none) ∧
    (∀ (db : DB) (m : InMsg) (uid : Nat) (nm id ymdS cts : String) (d : Nat),
      m.mtype = "interactive" → m.itype = some "list_reply" → m.replyId = some id →
      jsStartsWith id "absence_" = true → id ≠ "absence_other_date" →
      (jsSplit id '_').length = 3 →
      (jsSplit id '_').getD 1 "" = ymdS →
      (jsSplit id '_').getD 2 "" = cts →
      numberOrNull cts = none → castDate ymdS = some d →
      (handleAbsenceInteractive db m (.user uid nm true)).map (fun r => (r.1, r.2.1)) =
        some ((processAbsence db uid ymdS none).1,
          .absEngine (processAbsence db uid ymdS none).2)) := by
  refine ⟨?_, ?_, ?_, ?_, ?_, ?_⟩
  · intro db m uid nm id h1 h2 h3 h4 h5
    simp [handleMakeupInteractive, h1, h2, h3, h4, h5]
  · intro db m uid nm id h1 h2 h3 h4 h5 h6
    obtain ⟨a, b, c, hlist⟩ := List.length_eq_three.mp h5
    rw [hlist] at h6
    have h6' : jsParseIntNat c = none ∨ jsParseIntNat c = some 0 := by
      simpa [List.getD] using h6
    rcases h6' with h6' | h6' <;>
      simp [handleMakeupInteractive, h1, h2, h3, h4, hlist, h6']
  · intro db m iid id h1 h2 h3
    simp [handleInstructorAddSlotSelection, h1, h2, h3]
  · intro db m iid id h1 h2 h3 h4
    obtain ⟨a, b, c, d, hlist⟩ := listLengthEqFour h3
    rw [hlist] at h4
    have h4' : jsParseIntNat d = none ∨ jsParseIntNat d = some 0 := by
      simpa [List.getD] using h4
    rcases h4' with h4' | h4' <;>
      simp [handleInstructorAddSlotSelection, h1, h2, hlist, h4']
  · intro db m uid nm id h1 h2 h3 h4 h5 h6
    simp [handleAbsenceInteractive, h1, h2, h3, h4, h5, h6, Nat.not_le.mpr h6]
  · intro db m uid nm id ymdS cts d h1 h2 h3 h4 h5 h6 h6b h6c h7 h8
    rcases hpa : processAbsence db uid ymdS none with ⟨db2, r2⟩
    unfold handleAbsenceInteractive
    simp only [h1, h2, h3, Option.getD_some, h4, h6b, h6c, h7, h8, hpa]
    rw [if_neg (show ¬ ((!true) = true) by simp)]
    rw [if_neg (show ¬ ((id == "absence_other_date") = true) by simp [h5])]
    rw [if_neg (show ¬ ((jsSplit id '_').length < 3) by omega)]
    rw [if_pos (show (("interactive" == "interactive" &&
      some "list_reply" == some "list_reply") = true) by decide)]
    have hf : List.find? (fun a =>
        a.userId == uid && false && a.sessionDate == d) db.absences = none := by
      rw [List.find?_eq_none]
      intro a ha
      simp
    rw [hf]
    cases r2 <;> rfl

theorem c9_malformed_id_handling_witness :
    handleMakeupInteractive exDB
        ⟨"w1", "48222", "interactive", some "list_reply", some "makeup_x", none⟩
        (.user 2 "Ola" true) =
      some (exDB, .makeupBadId,
        [.text "Nie udało się rozpoznać wybranego terminu. Spróbuj proszę ponownie."]) ∧
    handleMakeupInteractive exDB
        ⟨"w2", "48222", "interactive", some "list_reply", some "makeup_2025-11-17_abc", none⟩
        (.user 2 "Ola" true) =
      some (exDB, .makeupBadId,
        [.text "Nie udało się rozpoznać wybranego terminu. Spróbuj proszę ponownie."]) ∧
    handleInstructorAddSlotSelection exDB
        ⟨"w3", "48777", "interactive", some "list_reply", some "instr_addslot_x", none⟩ 7 =
      some (exDB, .instrBadId, [.text "Nie udało się rozpoznać terminu. Spróbuj ponownie."]) ∧
    handleInstructorAddSlotSelection exDB
        ⟨"w4", "48777", "interactive", some "list_reply",
          some "instr_addslot_2025-11-17_abc", none⟩ 7 =
      some (exDB, .instrBadId, [.text "Nie udało się rozpoznać terminu. Spróbuj ponownie."]) ∧
    handleAbsenceInteractive exDB
        ⟨"w5", "48111", "interactive", some "list_reply", some "absence_x", none⟩
        (.user 1 "Ala" true) = none ∧
    (handleAbsenceInteractive exDB exBadAbsenceMsg (.user 1 "Ala" true)).map
        (fun r => (r.1, r.2.1)) =
      some ((processAbsence exDB 1 "2025-11-17" none).1,
        .absEngine (processAbsence exDB 1 "2025-11-17" none).2) := by
  have h := c9_malformed_id_handling
  exact ⟨h.1 exDB _ 2 "Ola" "makeup_x" rfl rfl rfl (by decide) (by decide),
    h.2.1 exDB _ 2 "Ola" "makeup_2025-11-17_abc" rfl rfl rfl (by decide) (by decide)
      (Or.inl (by decide)),
    h.2.2.1 exDB _ 7 "instr_addslot_x" rfl (by decide) (by decide),
    h.2.2.2.1 exDB _ 7 "instr_addslot_2025-11-17_abc" rfl (by decide) (by decide)
      (Or.inl (by decide)),
    h.2.2.2.2.1 exDB _ 1 "Ala" "absence_x" rfl rfl rfl (by decide) (by decide) (by decide),
    h.2.2.2.2.2 exDB _ 1 "Ala" "absence_2025-11-17_x" "2025-11-17" "x" 20409
      rfl rfl rfl (by decide) (by decide) (by decide) (by decide) (by decide)
      (by decide) (by decide)⟩

/-- `exDB` with no credit row at all for any member. -/
def exDBNoCredit : DB := { exDB with credits := [] }

/-- C2.  The claiming member's balance is read inside the transaction
(the row lock is what makes the read-check-decrement atomic, which is
exactly what the atomic transition models): whenever the call reaches
the credit check, a balance ≤ 0 — including the no-row case, which reads
as 0 — aborts the call with the no-credit reply and no state change; and
the balance is decremented only on a successful claim, so across every
sequence of inbound messages every balance stays ≥ 0 (given the ledger's
primary key and initially non-negative balances). -/
theorem c2_credit_nonnegative :
    (∀ (db : DB) (m : InMsg) (uid ct : Nat) (nm id : String),
      m.mtype = "interactive" → m.itype = some "list_reply" → m.replyId = some id →
      jsStartsWith id "makeup_" = true → (jsSplit id '_').length = 3 →
      jsParseIntNat ((jsSplit id '_').getD 2 "") = some ct → ct ≠ 0 →
      creditBalance db uid ≤ 0 →
      handleMakeupInteractive db m (.user uid nm true) =
        some (db, .makeupNoCredit,
          [.text "Nie masz już dostępnych nieobecności do odrabiania."])) ∧
    (∀ (db : DB) (ms : List InMsg), CreditsOK db.credits →
      ∀ c ∈ (runMessages db ms).credits, 0 ≤ c.balance) := by
  constructor
  · intro db m uid ct nm id h1 h2 h3 h4 h5 hct hct0 hbal
    obtain ⟨a, b, c, hlist⟩ := List.length_eq_three.mp h5
    rw [hlist] at hct
    have hct' : jsParseIntNat c = some ct := by simpa [List.getD] using hct
    cases ct with
    | zero => exact absurd rfl hct0
    | succ n =>
      simp [handleMakeupInteractive, h1, h2, h3, h4, hlist, hct', hbal]
  · intro db ms h
    exact (creditsOK_runMessages ms h).2

theorem c2_credit_nonnegative_witness :
    (handleMakeupInteractive exDBNoCredit exMakeupMsg (.user 2 "Ola" true) =
      some (exDBNoCredit, .makeupNoCredit,
        [.text "Nie masz już dostępnych nieobecności do odrabiania."])) ∧
    (∀ c ∈ (runMessages exDB [exTextMsg, exMakeupMsg]).credits, 0 ≤ c.balance) :=
  ⟨c2_credit_nonnegative.1 exDBNoCredit exMakeupMsg 2 10 "Ola" "makeup_2025-11-17_10"
      rfl rfl rfl (by decide) (by decide) (by decide) (by decide) (by decide),
    c2_credit_nonnegative.2 exDB [exTextMsg, exMakeupMsg] (by decide)⟩

theorem upsertCredit_balance (l : List CreditRow) (uid : Nat) :
    (match (upsertCredit l uid).find? (fun c => c.userId == uid) with
     | some c => c.balance
     | none => 0) =
    (match l.find? (fun c => c.userId == uid) with
     | some c => c.balance
     | none => 0) + 1 := by
  by_cases hany : (l.any fun c => c.userId == uid) = true
  · have hup : upsertCredit l uid = l.map (fun c =>
        if c.userId == uid then { c with balance := c.balance + 1 } else c) := by
      unfold upsertCredit
      rw [if_pos hany]
    rw [hup]
    rcases hf : l.find? (fun c => c.userId == uid) with _ | cr
    · exfalso
      rw [List.find?_eq_none] at hf
      rw [List.any_eq_true] at hany
      obtain ⟨x, hx, hpx⟩ := hany
      exact hf x hx hpx
    · have hmap : (l.map (fun c =>
          if c.userId == uid then { c with balance := c.balance + 1 } else c)).find?
            (fun c => c.userId == uid) =
          (l.find? (fun c => c.userId == uid)).map (fun c =>
            if c.userId == uid then { c with balance := c.balance + 1 } else c) := by
        rw [List.find?_map]
        have hpf : ((fun (c : CreditRow) => c.userId == uid) ∘ fun c =>
            if c.userId == uid then { c with balance := c.balance + 1 } else c) =
            (fun (c : CreditRow) => c.userId == uid) := by
          funext c
          simp only [Function.comp_apply]
          split <;> rfl
        rw [hpf]
      rw [hmap, hf]
      have hcu := List.find?_some hf
      simp only at hcu
      have hcu2 : cr.userId = uid := by simpa using hcu
      simp [hcu2]
  · have hup : upsertCredit l uid = l ++ [⟨uid, 1⟩] := by
      unfold upsertCredit
      rw [if_neg hany]
    have hf : l.find? (fun c => c.userId == uid) = none := by
      rw [List.find?_eq_none]
      intro x hx hpx
      exact hany (List.any_eq_true.mpr ⟨x, hx, hpx⟩)
    rw [hup, List.find?_append, hf]
    simp [List.find?]

theorem resolveClassTemplate_congr (db db2 : DB)
    (h1 : db2.enrollments = db.enrollments) (h2 : db2.classTemplates = db.classTemplates)
    (uid d : Nat) (hint : Option Nat) :
    resolveClassTemplate db2 uid d hint = resolveClassTemplate db uid d hint := by
  unfold resolveClassTemplate hintVerified userDayTemplates
  rw [h1, h2]

/-- C1.  When a report goes through (castable future date, resolvable
class, no prior absence, fresh absence id), it creates exactly one
absence row at its key, exactly one linked open slot, and raises the
member's balance by exactly 1; repeating the identical call on the
resulting state returns `already_absent` and leaves the state — all
three ledgers included — exactly as it was. -/
theorem c1_idempotent_absence (db : DB) (uid : Nat) (ymdS : String) (d ct : Nat)
    (hint : Option Nat)
    (hc : castDate ymdS = some d)
    (hp : ¬ d < db.today)
    (hr : resolveClassTemplate db uid d hint = some ct)
    (hab : db.absences.find? (fun a =>
      a.userId == uid && a.classTemplateId == ct && a.sessionDate == d) = none)
    (hsl : ∀ s ∈ db.slots, s.sourceAbsenceId ≠ some db.nextAbsenceId) :
    (processAbsence db uid ymdS hint).2 = .ok db.nextAbsenceId ct ∧
    (processAbsence db uid ymdS hint).1.absences.filter (fun a =>
      a.userId == uid && a.classTemplateId == ct && a.sessionDate == d) =
      [⟨db.nextAbsenceId, uid, ct, d⟩] ∧
    (processAbsence db uid ymdS hint).1.slots.filter (fun s =>
      s.sourceAbsenceId == some db.nextAbsenceId) =
      [⟨db.nextSlotId, ct, d, some db.nextAbsenceId, .opened, none⟩] ∧
    creditBalance (processAbsence db uid ymdS hint).1 uid = creditBalance db uid + 1 ∧
    processAbsence (processAbsence db uid ymdS hint).1 uid ymdS hint =
      ((processAbsence db uid ymdS hint).1, .alreadyAbsent db.nextAbsenceId ct) := by
  have hany : (db.slots.any fun s => s.sourceAbsenceId == some db.nextAbsenceId) = false := by
    rw [List.any_eq_false]
    intro s hs
    simpa using hsl s hs
  have hstep : processAbsence db uid ymdS hint =
      ({ db with
          absences := db.absences ++ [⟨db.nextAbsenceId, uid, ct, d⟩]
          slots := db.slots ++ [⟨db.nextSlotId, ct, d, some db.nextAbsenceId, .opened, none⟩]
          credits := upsertCredit db.credits uid
          nextAbsenceId := db.nextAbsenceId + 1
          nextSlotId := db.nextSlotId + 1 }, .ok db.nextAbsenceId ct) := by
    simp [processAbsence, hc, hp, hr, hab, hany]
  rw [hstep]
  refine ⟨rfl, ?_, ?_, ?_, ?_⟩
  · show (db.absences ++ [(⟨db.nextAbsenceId, uid, ct, d⟩ : Absence)]).filter _ = _
    rw [List.filter_append]
    have h0 : db.absences.filter (fun a =>
        a.userId == uid && a.classTemplateId == ct && a.sessionDate == d) = [] := by
      rw [List.filter_eq_nil_iff]
      intro a ha
      exact List.find?_eq_none.mp hab a ha
    rw [h0]
    simp
  · show (db.slots ++
      [(⟨db.nextSlotId, ct, d, some db.nextAbsenceId, .opened, none⟩ : Slot)]).filter _ = _
    rw [List.filter_append]
    have h0 : db.slots.filter (fun s => s.sourceAbsenceId == some db.nextAbsenceId) = [] := by
      rw [List.filter_eq_nil_iff]
      intro s hs
      simpa using hsl s hs
    rw [h0]
    simp
  · exact upsertCredit_balance db.credits uid
  · have hres : resolveClassTemplate
        ({ db with
            absences := db.absences ++ [⟨db.nextAbsenceId, uid, ct, d⟩]
            slots := db.slots ++ [⟨db.nextSlotId, ct, d, some db.nextAbsenceId, .opened, none⟩]
            credits := upsertCredit db.credits uid
            nextAbsenceId := db.nextAbsenceId + 1
            nextSlotId := db.nextSlotId + 1 } : DB) uid d hint = some ct :=
      (resolveClassTemplate_congr db _ rfl rfl uid d hint).trans hr
    have hfind1 : (db.absences ++ [(⟨db.nextAbsenceId, uid, ct, d⟩ : Absence)]).find? (fun a =>
        a.userId == uid && a.classTemplateId == ct && a.sessionDate == d) =
        some ⟨db.nextAbsenceId, uid, ct, d⟩ := by
      rw [List.find?_append, hab]
      simp [List.find?]
    simp [processAbsence, hc, hp, hres, hfind1]

theorem c1_idempotent_absence_witness :
    (processAbsence exDB 1 "2025-11-17" (some 10)).2 = .ok 100 10 ∧
    (processAbsence exDB 1 "2025-11-17" (some 10)).1.absences.filter (fun a =>
      a.userId == 1 && a.classTemplateId == 10 && a.sessionDate == 20409) =
      [⟨100, 1, 10, 20409⟩] ∧
    (processAbsence exDB 1 "2025-11-17" (some 10)).1.slots.filter (fun s =>
      s.sourceAbsenceId == some 100) = [⟨50, 10, 20409, some 100, .opened, none⟩] ∧
    creditBalance (processAbsence exDB 1 "2025-11-17" (some 10)).1 1 =
      creditBalance exDB 1 + 1 ∧
    processAbsence (processAbsence exDB 1 "2025-11-17" (some 10)).1 1 "2025-11-17" (some 10) =
      ((processAbsence exDB 1 "2025-11-17" (some 10)).1, .alreadyAbsent 100 10) :=
  c1_idempotent_absence exDB 1 "2025-11-17" 20409 10 (some 10)
    (by decide) (by decide) (by decide) (by decide) (by decide)

end BookingTool
